import Mathlib

/-!
Shallow embedding of the WeBullRobotTrading position-lifecycle code
(trading.py, trading_crypto.py, hyperliquid_btc_trading.py) and proofs of
the spec's claims about it.

Python `Decimal` values, float constants and prices are modelled as `ℚ`.
Network effects (price fetches, order submissions, open-order listings) are
modelled as explicit environment records passed into each step; an attribute
such as `price_raises = true` means the corresponding gateway call raised.
Outbound notifications are modelled by their title, a tag identifying the
message template at the call site (dynamic message contents are abstracted
away), and the priority passed to `send_notification`.
-/

/-- Rounding modes used by the source (Python `decimal` module constants). -/
inductive Rounding
  | ROUND_DOWN
  | ROUND_UP
deriving DecidableEq

/-- Python `int()` / `Decimal` `ROUND_DOWN`: truncation toward zero. -/
def truncToward0 (x : ℚ) : ℤ :=
  if 0 ≤ x then ⌊x⌋ else ⌈x⌉

/-- Python `Decimal` `ROUND_UP`: rounding away from zero. -/
def roundAway0 (x : ℚ) : ℤ :=
  if 0 ≤ x then ⌈x⌉ else ⌊x⌋

/-- Python `x.quantize(step, rounding)` for the two rounding modes the source uses. -/
def quantize (x step : ℚ) (r : Rounding) : ℚ :=
  match r with
  | .ROUND_DOWN => (truncToward0 (x / step) : ℚ) * step
  | .ROUND_UP => (roundAway0 (x / step) : ℚ) * step

/-- Source `round_to_tick_size` (identical in trading_crypto.py and
hyperliquid_btc_trading.py): `(price / tick_size).quantize(Decimal("1"), rounding) * tick_size`. -/
def round_to_tick_size (price tick_size : ℚ) (r : Rounding) : ℚ :=
  quantize (price / tick_size) 1 r * tick_size

/-- One entry of the `statuses` list in a Hyperliquid order response;
`error = some msg` models a status dict containing an "error" key. -/
structure OrderStatus where
  error : Option String
deriving DecidableEq

/-- Outcome of one `exchange.order` (or `trading_client.submit_order`) call:
the call raised, returned a response whose "status" field is not "ok", or
returned "ok" together with a list of nested statuses. -/
inductive OrderResp
  | raised
  | notOk
  | ok (statuses : List OrderStatus)
deriving DecidableEq

/-- True when a response is "ok" but some nested status carries an "error" key. -/
def OrderResp.hasNestedError : OrderResp → Bool
  | .ok statuses => statuses.any (fun s => s.error.isSome)
  | _ => false

/-- Kind of order submitted to a gateway. -/
inductive OrderKind
  | market
  | iocLimit
  | triggerTp
  | triggerSl
deriving DecidableEq

/-- An order as handed to the execution gateway. `px = none` for market orders. -/
structure SubmittedOrder where
  symbol : String
  is_buy : Bool
  sz : ℚ
  px : Option ℚ
  kind : OrderKind
  reduce_only : Bool
deriving DecidableEq

/-- Identifies the `send_notification` call site (message template) that
produced a notification; the dynamic parts of the message are abstracted. -/
inductive NotifDesc
  | shortingDisabled
  | maxSymbols
  | noPosition
  | pendingOrder
  | boughtShares
  | soldShares
  | shortedShares
  | coveredShares
  | nothingToSell
  | nothingToCover
  | tradingError
  | cryptoOpened
  | cryptoClosed
  | openLongError
  | closePositionError
  | positionOpened
  | openPositionError
deriving DecidableEq

/-- One outbound notification: title string, call-site tag, and priority. -/
structure Notification where
  title : String
  desc : NotifDesc
  priority : ℤ
deriving DecidableEq

namespace TradingCrypto

/-- trading_crypto.py `SYMBOL = "ETH"`. -/
def SYMBOL : String := "ETH"

/-- trading_crypto.py `NUM_PARTS = 10`. -/
def NUM_PARTS : ℕ := 10

/-- One element of `trade_queue`: `(entry_price, size_eth)`. -/
abbrev Lot := ℚ × ℚ

/-- trading_crypto.py `calculate_trade_size`: the queue length is passed
explicitly instead of read from the global `trade_queue`. -/
def calculate_trade_size (queue_len : ℕ) (account_value : ℚ) : ℚ :=
  let remaining_slots : ℤ := (NUM_PARTS : ℤ) - (queue_len : ℤ)
  if remaining_slots ≤ 0 then 0
  else quantize (account_value / (remaining_slots : ℚ)) (1 / 100) .ROUND_DOWN

/-- Gateway outcomes consumed by one `open_long` call. -/
structure OpenEnv where
  price_raises : Bool
  price : ℚ
  resp : OrderResp
deriving DecidableEq

/-- Gateway outcomes consumed by one `close_oldest_position` call. -/
structure CloseEnv where
  price_raises : Bool
  price : ℚ
  resp : OrderResp
deriving DecidableEq

/-- Result of one crypto-bot operation: the new `trade_queue`, the orders
handed to `exchange.order`, and the notifications sent. -/
structure OpResult where
  queue : List Lot
  orders : List SubmittedOrder
  notifs : List Notification
deriving DecidableEq

/-- trading_crypto.py `open_long`: place an aggressive IOC limit buy; on
success append `(price, size_eth)` to the back of `trade_queue`; every
failure path lands in the `except` clause which sends a priority-1
notification and leaves the queue untouched. -/
def open_long (leverage : ℚ) (q : List Lot) (size_usd tick_size : ℚ)
    (env : OpenEnv) : OpResult :=
  if env.price_raises then
    ⟨q, [], [⟨"ERROR opening long", .openLongError, 1⟩]⟩
  else
    let price := env.price
    let size_eth := quantize (size_usd * leverage / price) (1 / 10000) .ROUND_DOWN
    if size_eth < 1 / 1000 then
      ⟨q, [], [⟨"ERROR opening long", .openLongError, 1⟩]⟩
    else
      let limit_price := round_to_tick_size (price * (105 / 100)) tick_size .ROUND_UP
      let order : SubmittedOrder := ⟨SYMBOL, true, size_eth, some limit_price, .iocLimit, false⟩
      match env.resp with
      | .raised => ⟨q, [order], [⟨"ERROR opening long", .openLongError, 1⟩]⟩
      | .notOk => ⟨q, [order], [⟨"ERROR opening long", .openLongError, 1⟩]⟩
      | .ok statuses =>
        if statuses.any (fun s => s.error.isSome) then
          ⟨q, [order], [⟨"ERROR opening long", .openLongError, 1⟩]⟩
        else
          ⟨q ++ [(price, size_eth)], [order], [⟨"BUY", .cryptoOpened, 0⟩]⟩

/-- trading_crypto.py `close_oldest_position`: pop the front lot, place an
aggressive IOC limit sell.  On an explicit response failure the lot is
pushed back to the front before raising; the `except` clause then re-adds
the lot only if `(entry_price, size_eth) not in trade_queue`, so after an
early raise (price fetch or the order call itself) a popped lot identical
to a remaining one is NOT pushed back. -/
def close_oldest_position (q : List Lot) (tick_size : ℚ) (env : CloseEnv) : OpResult :=
  match q with
  | [] => ⟨[], [], []⟩
  | lot :: rest =>
    if env.price_raises then
      ⟨if lot ∈ rest then rest else lot :: rest, [],
        [⟨"ERROR closing position", .closePositionError, 1⟩]⟩
    else
      let price := env.price
      let limit_price := round_to_tick_size (price * (95 / 100)) tick_size .ROUND_DOWN
      let order : SubmittedOrder := ⟨SYMBOL, false, lot.2, some limit_price, .iocLimit, false⟩
      match env.resp with
      | .raised =>
        ⟨if lot ∈ rest then rest else lot :: rest, [order],
          [⟨"ERROR closing position", .closePositionError, 1⟩]⟩
      | .notOk =>
        ⟨lot :: rest, [order], [⟨"ERROR closing position", .closePositionError, 1⟩]⟩
      | .ok statuses =>
        if statuses.any (fun s => s.error.isSome) then
          ⟨lot :: rest, [order], [⟨"ERROR closing position", .closePositionError, 1⟩]⟩
        else
          ⟨rest, [order], [⟨"SELL", .cryptoClosed, 0⟩]⟩

/-- Environment for one iteration of the trading_crypto.py `main` loop.
`pending_orders` is the number of outstanding unfilled orders the gateway
would report; this loop never queries it. -/
structure StepEnv where
  sig_raises : Bool
  sig : Option (String × String)
  account_value : ℚ
  pending_orders : ℕ
  open_env : OpenEnv
  close_env : CloseEnv
deriving DecidableEq

/-- One iteration of the trading_crypto.py `main` loop body. -/
def main_step (leverage : ℚ) (q : List Lot) (tick_size : ℚ) (env : StepEnv) : OpResult :=
  if env.sig_raises then ⟨q, [], []⟩
  else
    match env.sig with
    | none => ⟨q, [], []⟩
    | some (signal_type, asset) =>
      if asset ≠ SYMBOL ++ ".X" then ⟨q, [], []⟩
      else if signal_type = "BUY" then
        if NUM_PARTS ≤ q.length then ⟨q, [], []⟩
        else
          let size_usd := calculate_trade_size q.length env.account_value
          if size_usd ≤ 1 then ⟨q, [], []⟩
          else open_long leverage q size_usd tick_size env.open_env
      else if signal_type = "SELL" then close_oldest_position q tick_size env.close_env
      else ⟨q, [], []⟩

/-- The trading_crypto.py loop run over a sequence of iteration environments. -/
def main_run (leverage : ℚ) (tick_size : ℚ) (q : List Lot) (envs : List StepEnv) : List Lot :=
  envs.foldl (fun acc e => (main_step leverage acc tick_size e).queue) q

end TradingCrypto

namespace Trading

/-- trading.py `MAX_CONCURRENT_SYMBOLS = 9`. -/
def MAX_CONCURRENT_SYMBOLS : ℕ := 9

/-- trading.py `INVEST_PERCENTAGE = 0.99 / MAX_CONCURRENT_SYMBOLS`
(the float constant is modelled exactly as a rational). -/
def INVEST_PERCENTAGE : ℚ := (99 / 100) / (MAX_CONCURRENT_SYMBOLS : ℚ)

/-- The mutable globals of the trading.py loop: `active_trading_symbols`
(a Python set) and `initial_cash` (a number or `None`). -/
structure State where
  active : Finset String
  initial_cash : Option ℚ
deriving DecidableEq

/-- Module-level initial values of the globals in trading.py. -/
def initialState : State :=
  ⟨{"TSM", "NVDS", "DUG", "NVDA"}, some 25000⟩

/-- trading.py `can_trade_symbol`: closing signals need the symbol to be
active with a non-zero live position; opening signals need the active-symbol
count to be below the cap; anything else is refused. -/
def can_trade_symbol (active : Finset String) (symbol : String)
    (signal_type : String) (position_qty : ℚ) : Bool :=
  if signal_type = "SELL" ∨ signal_type = "COVER" then
    decide (symbol ∈ active ∧ position_qty ≠ 0)
  else if signal_type = "BUY" ∨ signal_type = "SHORT" then
    decide (active.card < MAX_CONCURRENT_SYMBOLS)
  else false

/-- trading.py `has_pending_orders`: `len(get_orders()) > 0`, with any
exception caught and turned into `False`. -/
def has_pending_orders (orders : Except Unit (List Unit)) : Bool :=
  match orders with
  | .ok os => decide (0 < os.length)
  | .error _ => false

/-- Outcome of `trading_client.submit_order`. -/
inductive Submit
  | accepted
  | raises
deriving DecidableEq

/-- trading.py `place_us_order`: quantities below 0.01 shares return `False`
without a gateway call; otherwise a market order is submitted and the call
either returns `True` or re-raises the gateway exception.  Also returns the
orders handed to the gateway. -/
def place_us_order (symbol : String) (qty : ℚ) (side : String)
    (submit : Submit) : Except Unit Bool × List SubmittedOrder :=
  if qty < 1 / 100 then (.ok false, [])
  else
    let o : SubmittedOrder := ⟨symbol, side = "BUY", qty, none, .market, false⟩
    match submit with
    | .accepted => (.ok true, [o])
    | .raises => (.error (), [o])

/-- Environment for one iteration of the trading.py `main` loop:
the signal (if any), the gateway values fetched this iteration, and
which gateway calls raise. -/
structure Env where
  sig : Option (String × String)
  balance_raises : Bool
  balance : ℚ
  price_raises : Bool
  price : ℚ
  account_raises : Bool
  position_qty : ℚ
  orders : Except Unit (List Unit)
  submit : Submit

/-- Result of one trading.py loop iteration. -/
structure StepResult where
  state : State
  orders_sent : List SubmittedOrder
  notifs : List Notification
deriving DecidableEq

/-- Shorthand for the loop-boundary `except` notification
`send_notification("ERROR Trading", ..., priority omitted)` whose default
priority is 2. -/
def tradingErrorNotif : Notification := ⟨"ERROR Trading", .tradingError, 2⟩

/-- trading.py line 197: whenever a signal arrives while
`active_trading_symbols` is empty, `initial_cash` is (re)captured from the
just-fetched balance. -/
def capture_initial_cash (st : State) (balance : ℚ) : State :=
  if st.active.card = 0 then ⟨st.active, some balance⟩ else st

/-- The `signal_type == 'BUY' and current_balance > 0` block of the
trading.py loop body: allocate `min(initial_cash * INVEST_PERCENTAGE,
current_balance)`, truncate to whole shares, place the market order, and on
acceptance add the symbol to the active set.  A `None` `initial_cash` would
raise a `TypeError`; any raise is caught at the loop boundary. -/
def buy_branch (st1 : State) (symbol : String)
    (current_balance current_price : ℚ) (submit : Submit) : StepResult :=
  match st1.initial_cash with
  | none => ⟨st1, [], [tradingErrorNotif]⟩
  | some ic =>
    let invest_amt := min (ic * INVEST_PERCENTAGE) current_balance
    let qty : ℤ := truncToward0 (invest_amt / current_price)
    if 0 < qty then
      match place_us_order symbol (qty : ℚ) "BUY" submit with
      | (.error _, os) => ⟨st1, os, [tradingErrorNotif]⟩
      | (.ok true, os) =>
        ⟨⟨insert symbol st1.active, st1.initial_cash⟩, os,
          [⟨"BUY Signal", .boughtShares, 0⟩]⟩
      | (.ok false, os) => ⟨st1, os, []⟩
    else ⟨st1, [], []⟩

/-- The `signal_type == 'SELL'` block of the trading.py loop body: sell the
live position quantity; on acceptance remove the symbol from the active set
and reset `initial_cash` to `None` if no active symbols remain. -/
def sell_branch (st1 : State) (symbol : String) (position_qty : ℚ)
    (submit : Submit) : StepResult :=
  if 0 < position_qty then
    match place_us_order symbol position_qty "SELL" submit with
    | (.error _, os) => ⟨st1, os, [tradingErrorNotif]⟩
    | (.ok true, os) =>
      let newActive := st1.active.erase symbol
      ⟨⟨newActive, if newActive.card = 0 then none else st1.initial_cash⟩, os,
        [⟨"SELL Signal", .soldShares, 0⟩]⟩
    | (.ok false, os) => ⟨st1, os, []⟩
  else ⟨st1, [], [⟨"Nothing to sell", .nothingToSell, 0⟩]⟩

/-- The `signal_type == 'SHORT'` block of the trading.py loop body: same
allocation as a buy, placed as a SELL order, whole shares only. -/
def short_branch (st1 : State) (symbol : String)
    (current_balance current_price : ℚ) (submit : Submit) : StepResult :=
  match st1.initial_cash with
  | none => ⟨st1, [], [tradingErrorNotif]⟩
  | some ic =>
    let invest_amt := min (ic * INVEST_PERCENTAGE) current_balance
    let qty : ℤ := truncToward0 (invest_amt / current_price)
    if 0 < qty then
      match place_us_order symbol (qty : ℚ) "SELL" submit with
      | (.error _, os) => ⟨st1, os, [tradingErrorNotif]⟩
      | (.ok true, os) =>
        ⟨⟨insert symbol st1.active, st1.initial_cash⟩, os,
          [⟨"SHORT Signal", .shortedShares, 0⟩]⟩
      | (.ok false, os) => ⟨st1, os, []⟩
    else ⟨st1, [], []⟩

/-- The `signal_type == 'COVER'` block of the trading.py loop body: buy back
the absolute short quantity; on acceptance remove the symbol and reset
`initial_cash` to `None` if no active symbols remain. -/
def cover_branch (st1 : State) (symbol : String) (position_qty : ℚ)
    (submit : Submit) : StepResult :=
  if 0 < |position_qty| then
    match place_us_order symbol |position_qty| "BUY" submit with
    | (.error _, os) => ⟨st1, os, [tradingErrorNotif]⟩
    | (.ok true, os) =>
      let newActive := st1.active.erase symbol
      ⟨⟨newActive, if newActive.card = 0 then none else st1.initial_cash⟩, os,
        [⟨"COVER Signal", .coveredShares, 0⟩]⟩
    | (.ok false, os) => ⟨st1, os, []⟩
  else ⟨st1, [], [⟨"Nothing to cover", .nothingToCover, 0⟩]⟩

/-- One iteration of the trading.py `main` loop body.  An exception at any
point is caught at the loop boundary, sending the "ERROR Trading"
notification; state mutations made before the raise persist. -/
def main_step (short_enabled : Bool) (st : State) (env : Env) : StepResult :=
  match env.sig with
  | none => ⟨st, [], []⟩
  | some (signal_type, symbol) =>
    if (signal_type = "SHORT" ∨ signal_type = "COVER") ∧ short_enabled = false then
      ⟨st, [], [⟨"Order Rejected", .shortingDisabled, 0⟩]⟩
    else if env.balance_raises then ⟨st, [], [tradingErrorNotif]⟩
    else
      let current_balance := env.balance
      let st1 := capture_initial_cash st current_balance
      if env.price_raises then ⟨st1, [], [tradingErrorNotif]⟩
      else
        let current_price := env.price
        -- can_trade_symbol fetches the account for non-closing signals;
        -- a raise there propagates to the loop boundary
        if ¬(signal_type = "SELL" ∨ signal_type = "COVER") ∧ env.account_raises then
          ⟨st1, [], [tradingErrorNotif]⟩
        else if can_trade_symbol st1.active symbol signal_type env.position_qty = false then
          if MAX_CONCURRENT_SYMBOLS ≤ st1.active.card then
            ⟨st1, [], [⟨"Order Rejected", .maxSymbols, 0⟩]⟩
          else
            ⟨st1, [], [⟨"Order Rejected", .noPosition, 0⟩]⟩
        else if has_pending_orders env.orders then
          ⟨st1, [], [⟨"Order Rejected", .pendingOrder, 0⟩]⟩
        else if signal_type = "BUY" ∧ 0 < current_balance then
          buy_branch st1 symbol current_balance current_price env.submit
        else if signal_type = "SELL" then
          sell_branch st1 symbol env.position_qty env.submit
        else if signal_type = "SHORT" then
          short_branch st1 symbol current_balance current_price env.submit
        else if signal_type = "COVER" then
          cover_branch st1 symbol env.position_qty env.submit
        else ⟨st1, [], []⟩

/-- The trading.py loop run over a sequence of iteration environments. -/
def main_run (short_enabled : Bool) (st : State) (envs : List Env) : State :=
  envs.foldl (fun acc e => (main_step short_enabled acc e).state) st

end Trading

namespace HyperliquidBtc

/-- hyperliquid_btc_trading.py `SYMBOL = "BTC"`. -/
def SYMBOL : String := "BTC"

/-- hyperliquid_btc_trading.py `LEVERAGE = 10`. -/
def LEVERAGE : ℚ := 10

/-- hyperliquid_btc_trading.py `TAKE_PROFIT_PCT = Decimal("0.005")`. -/
def TAKE_PROFIT_PCT : ℚ := 5 / 1000

/-- hyperliquid_btc_trading.py `STOP_LOSS_PCT = Decimal("0.003")`. -/
def STOP_LOSS_PCT : ℚ := 3 / 1000

/-- Gateway outcomes consumed by one `open_position` call: the market-price
fetch, then the entry, take-profit and stop-loss order submissions. -/
structure OpenPosEnv where
  price_raises : Bool
  market_price : ℚ
  main_resp : OrderResp
  tp_resp : OrderResp
  sl_resp : OrderResp
deriving DecidableEq

/-- Result of one `open_position` call: the orders handed to
`exchange.order` in submission order, and the notifications sent. -/
structure OpenPosResult where
  orders : List SubmittedOrder
  notifs : List Notification
deriving DecidableEq

/-- Title of the `except`-clause notification of `open_position`. -/
def openErrorTitle (is_long : Bool) : String :=
  "ERROR opening " ++ (if is_long then "LONG" else "SHORT") ++ " position"

/-- hyperliquid_btc_trading.py `open_position`: entry IOC limit order, then a
reduce-only take-profit trigger and a reduce-only stop-loss trigger, each
response checked for top-level and nested errors; any failure raises, which
the function's own `except` clause turns into a priority-1 notification with
no retry. -/
def open_position (is_long : Bool) (size_usd tick_size : ℚ)
    (env : OpenPosEnv) : OpenPosResult :=
  if env.price_raises then ⟨[], [⟨openErrorTitle is_long, .openPositionError, 1⟩]⟩
  else
    let market_price := env.market_price
    let size_btc := quantize (size_usd * LEVERAGE / market_price) (1 / 10000) .ROUND_DOWN
    if size_btc < 1 / 1000 then
      ⟨[], [⟨openErrorTitle is_long, .openPositionError, 1⟩]⟩
    else
      let price_modifier : ℚ := if is_long then 105 / 100 else 95 / 100
      let raw_limit_price := market_price * price_modifier
      let rounding_method : Rounding := if is_long then .ROUND_UP else .ROUND_DOWN
      let limit_price := round_to_tick_size raw_limit_price tick_size rounding_method
      let entry : SubmittedOrder := ⟨SYMBOL, is_long, size_btc, some limit_price, .iocLimit, false⟩
      if env.main_resp = .raised ∨ env.main_resp = .notOk ∨ env.main_resp.hasNestedError then
        ⟨[entry], [⟨openErrorTitle is_long, .openPositionError, 1⟩]⟩
      else
        let tp_raw :=
          if is_long then market_price * (1 + TAKE_PROFIT_PCT)
          else market_price * (1 - TAKE_PROFIT_PCT)
        let sl_raw :=
          if is_long then market_price * (1 - STOP_LOSS_PCT)
          else market_price * (1 + STOP_LOSS_PCT)
        -- the source calls round_to_tick_size with its default ROUND_DOWN here
        let tp_price := round_to_tick_size tp_raw tick_size .ROUND_DOWN
        let sl_price := round_to_tick_size sl_raw tick_size .ROUND_DOWN
        let tp : SubmittedOrder := ⟨SYMBOL, !is_long, size_btc, some tp_price, .triggerTp, true⟩
        if env.tp_resp = .raised ∨ env.tp_resp = .notOk ∨ env.tp_resp.hasNestedError then
          ⟨[entry, tp], [⟨openErrorTitle is_long, .openPositionError, 1⟩]⟩
        else
          let sl : SubmittedOrder := ⟨SYMBOL, !is_long, size_btc, some sl_price, .triggerSl, true⟩
          if env.sl_resp = .raised ∨ env.sl_resp = .notOk ∨ env.sl_resp.hasNestedError then
            ⟨[entry, tp, sl], [⟨openErrorTitle is_long, .openPositionError, 1⟩]⟩
          else
            ⟨[entry, tp, sl],
              [⟨(if is_long then "LONG" else "SHORT") ++ " OPENED", .positionOpened, 0⟩]⟩

end HyperliquidBtc

section RoundingLemmas

theorem truncToward0_le (x : ℚ) (hx : 0 ≤ x) : (truncToward0 x : ℚ) ≤ x := by
  unfold truncToward0
  rw [if_pos hx]
  exact Int.floor_le x

theorem le_roundAway0 (x : ℚ) (hx : 0 ≤ x) : x ≤ (roundAway0 x : ℚ) := by
  unfold roundAway0
  rw [if_pos hx]
  exact Int.le_ceil x

theorem quantize_down_le (x step : ℚ) (hs : 0 < step) (hx : 0 ≤ x) :
    quantize x step .ROUND_DOWN ≤ x := by
  unfold quantize
  calc (truncToward0 (x / step) : ℚ) * step
      ≤ (x / step) * step :=
        mul_le_mul_of_nonneg_right (truncToward0_le _ (div_nonneg hx hs.le)) hs.le
    _ = x := div_mul_cancel₀ x hs.ne'

theorem le_quantize_up (x step : ℚ) (hs : 0 < step) (hx : 0 ≤ x) :
    x ≤ quantize x step .ROUND_UP := by
  unfold quantize
  calc x = (x / step) * step := (div_mul_cancel₀ x hs.ne').symm
    _ ≤ (roundAway0 (x / step) : ℚ) * step :=
        mul_le_mul_of_nonneg_right (le_roundAway0 _ (div_nonneg hx hs.le)) hs.le

theorem round_to_tick_up_eq (price tick : ℚ) :
    round_to_tick_size price tick .ROUND_UP = (roundAway0 (price / tick) : ℚ) * tick := by
  simp [round_to_tick_size, quantize]

theorem round_to_tick_down_eq (price tick : ℚ) :
    round_to_tick_size price tick .ROUND_DOWN
      = (truncToward0 (price / tick) : ℚ) * tick := by
  simp [round_to_tick_size, quantize]

theorem round_to_tick_up_ge (price tick : ℚ) (ht : 0 < tick) (hp : 0 ≤ price) :
    price ≤ round_to_tick_size price tick .ROUND_UP := by
  rw [round_to_tick_up_eq]
  calc price = (price / tick) * tick := (div_mul_cancel₀ price ht.ne').symm
    _ ≤ (roundAway0 (price / tick) : ℚ) * tick :=
        mul_le_mul_of_nonneg_right (le_roundAway0 _ (div_nonneg hp ht.le)) ht.le

theorem round_to_tick_down_le (price tick : ℚ) (ht : 0 < tick) (hp : 0 ≤ price) :
    round_to_tick_size price tick .ROUND_DOWN ≤ price := by
  rw [round_to_tick_down_eq]
  calc (truncToward0 (price / tick) : ℚ) * tick
      ≤ (price / tick) * tick :=
        mul_le_mul_of_nonneg_right (truncToward0_le _ (div_nonneg hp ht.le)) ht.le
    _ = price := div_mul_cancel₀ price ht.ne'

theorem round_to_tick_multiple (price tick : ℚ) (r : Rounding) :
    ∃ n : ℤ, round_to_tick_size price tick r = (n : ℚ) * tick := by
  cases r
  · exact ⟨truncToward0 (price / tick), round_to_tick_down_eq price tick⟩
  · exact ⟨roundAway0 (price / tick), round_to_tick_up_eq price tick⟩

end RoundingLemmas

theorem Trading.capture_initial_cash_active (st : Trading.State) (b : ℚ) :
    (Trading.capture_initial_cash st b).active = st.active := by
  unfold Trading.capture_initial_cash
  split <;> rfl

theorem Trading.buy_branch_active (st1 : Trading.State) (symbol : String)
    (b p : ℚ) (s : Trading.Submit) :
    (Trading.buy_branch st1 symbol b p s).state.active = st1.active
    ∨ (Trading.buy_branch st1 symbol b p s).state.active = insert symbol st1.active := by
  unfold Trading.buy_branch
  split
  · simp
  · dsimp only
    split
    · split <;> simp
    · simp

theorem Trading.short_branch_active (st1 : Trading.State) (symbol : String)
    (b p : ℚ) (s : Trading.Submit) :
    (Trading.short_branch st1 symbol b p s).state.active = st1.active
    ∨ (Trading.short_branch st1 symbol b p s).state.active = insert symbol st1.active := by
  unfold Trading.short_branch
  split
  · simp
  · dsimp only
    split
    · split <;> simp
    · simp

theorem Trading.sell_branch_active (st1 : Trading.State) (symbol : String)
    (pq : ℚ) (s : Trading.Submit) :
    (Trading.sell_branch st1 symbol pq s).state.active = st1.active
    ∨ (Trading.sell_branch st1 symbol pq s).state.active = st1.active.erase symbol := by
  unfold Trading.sell_branch
  split
  · split <;> simp
  · simp

theorem Trading.cover_branch_active (st1 : Trading.State) (symbol : String)
    (pq : ℚ) (s : Trading.Submit) :
    (Trading.cover_branch st1 symbol pq s).state.active = st1.active
    ∨ (Trading.cover_branch st1 symbol pq s).state.active = st1.active.erase symbol := by
  unfold Trading.cover_branch
  split
  · split <;> simp
  · simp

theorem bool_eq_true_of_ne_false {b : Bool} (h : ¬ b = false) : b = true := by
  cases b <;> simp_all

theorem bool_eq_false_of_ne_true {b : Bool} (h : ¬ b = true) : b = false := by
  cases b <;> simp_all

theorem Trading.main_step_no_signal (se : Bool) (st : Trading.State)
    (env : Trading.Env) (hsig : env.sig = none) :
    Trading.main_step se st env = ⟨st, [], []⟩ := by
  simp only [Trading.main_step, hsig]

theorem Trading.main_step_short_disabled (se : Bool) (st : Trading.State)
    (env : Trading.Env) (sigt sym : String) (hsig : env.sig = some (sigt, sym))
    (h1 : (sigt = "SHORT" ∨ sigt = "COVER") ∧ se = false) :
    Trading.main_step se st env
      = ⟨st, [], [⟨"Order Rejected", .shortingDisabled, 0⟩]⟩ := by
  simp only [Trading.main_step, hsig]
  rw [if_pos h1]

theorem Trading.main_step_balance_raises (se : Bool) (st : Trading.State)
    (env : Trading.Env) (sigt sym : String) (hsig : env.sig = some (sigt, sym))
    (h1 : ¬((sigt = "SHORT" ∨ sigt = "COVER") ∧ se = false))
    (h2 : env.balance_raises = true) :
    Trading.main_step se st env = ⟨st, [], [Trading.tradingErrorNotif]⟩ := by
  simp only [Trading.main_step, hsig]
  rw [if_neg h1, if_pos h2]

theorem Trading.main_step_price_raises (se : Bool) (st : Trading.State)
    (env : Trading.Env) (sigt sym : String) (hsig : env.sig = some (sigt, sym))
    (h1 : ¬((sigt = "SHORT" ∨ sigt = "COVER") ∧ se = false))
    (h2 : env.balance_raises = false)
    (h3 : env.price_raises = true) :
    Trading.main_step se st env
      = ⟨Trading.capture_initial_cash st env.balance, [], [Trading.tradingErrorNotif]⟩ := by
  simp only [Trading.main_step, hsig]
  rw [if_neg h1, if_neg (by simp [h2]), if_pos h3]

theorem Trading.main_step_account_raises (se : Bool) (st : Trading.State)
    (env : Trading.Env) (sigt sym : String) (hsig : env.sig = some (sigt, sym))
    (h1 : ¬((sigt = "SHORT" ∨ sigt = "COVER") ∧ se = false))
    (h2 : env.balance_raises = false)
    (h3 : env.price_raises = false)
    (h4 : ¬(sigt = "SELL" ∨ sigt = "COVER") ∧ env.account_raises = true) :
    Trading.main_step se st env
      = ⟨Trading.capture_initial_cash st env.balance, [], [Trading.tradingErrorNotif]⟩ := by
  simp only [Trading.main_step, hsig]
  rw [if_neg h1, if_neg (by simp [h2]), if_neg (by simp [h3]), if_pos h4]

theorem Trading.main_step_deny_max (se : Bool) (st : Trading.State)
    (env : Trading.Env) (sigt sym : String) (hsig : env.sig = some (sigt, sym))
    (h1 : ¬((sigt = "SHORT" ∨ sigt = "COVER") ∧ se = false))
    (h2 : env.balance_raises = false)
    (h3 : env.price_raises = false)
    (h4 : ¬(¬(sigt = "SELL" ∨ sigt = "COVER") ∧ env.account_raises = true))
    (h5 : Trading.can_trade_symbol st.active sym sigt env.position_qty = false)
    (h6 : Trading.MAX_CONCURRENT_SYMBOLS ≤ st.active.card) :
    Trading.main_step se st env
      = ⟨Trading.capture_initial_cash st env.balance, [],
          [⟨"Order Rejected", .maxSymbols, 0⟩]⟩ := by
  simp only [Trading.main_step, hsig]
  rw [if_neg h1, if_neg (by simp [h2]), if_neg (by simp [h3]), if_neg h4,
    if_pos (by rw [Trading.capture_initial_cash_active]; exact h5),
    if_pos (by rw [Trading.capture_initial_cash_active]; exact h6)]

theorem Trading.main_step_deny_no_position (se : Bool) (st : Trading.State)
    (env : Trading.Env) (sigt sym : String) (hsig : env.sig = some (sigt, sym))
    (h1 : ¬((sigt = "SHORT" ∨ sigt = "COVER") ∧ se = false))
    (h2 : env.balance_raises = false)
    (h3 : env.price_raises = false)
    (h4 : ¬(¬(sigt = "SELL" ∨ sigt = "COVER") ∧ env.account_raises = true))
    (h5 : Trading.can_trade_symbol st.active sym sigt env.position_qty = false)
    (h6 : ¬ Trading.MAX_CONCURRENT_SYMBOLS ≤ st.active.card) :
    Trading.main_step se st env
      = ⟨Trading.capture_initial_cash st env.balance, [],
          [⟨"Order Rejected", .noPosition, 0⟩]⟩ := by
  simp only [Trading.main_step, hsig]
  rw [if_neg h1, if_neg (by simp [h2]), if_neg (by simp [h3]), if_neg h4,
    if_pos (by rw [Trading.capture_initial_cash_active]; exact h5),
    if_neg (by rw [Trading.capture_initial_cash_active]; exact h6)]

theorem Trading.main_step_deny_pending (se : Bool) (st : Trading.State)
    (env : Trading.Env) (sigt sym : String) (hsig : env.sig = some (sigt, sym))
    (h1 : ¬((sigt = "SHORT" ∨ sigt = "COVER") ∧ se = false))
    (h2 : env.balance_raises = false)
    (h3 : env.price_raises = false)
    (h4 : ¬(¬(sigt = "SELL" ∨ sigt = "COVER") ∧ env.account_raises = true))
    (h5 : Trading.can_trade_symbol st.active sym sigt env.position_qty = true)
    (h7 : Trading.has_pending_orders env.orders = true) :
    Trading.main_step se st env
      = ⟨Trading.capture_initial_cash st env.balance, [],
          [⟨"Order Rejected", .pendingOrder, 0⟩]⟩ := by
  simp only [Trading.main_step, hsig]
  rw [if_neg h1, if_neg (by simp [h2]), if_neg (by simp [h3]), if_neg h4,
    if_neg (by rw [Trading.capture_initial_cash_active]; simp [h5]),
    if_pos h7]

theorem Trading.main_step_buy (se : Bool) (st : Trading.State)
    (env : Trading.Env) (sym : String) (hsig : env.sig = some ("BUY", sym))
    (h2 : env.balance_raises = false)
    (h3 : env.price_raises = false)
    (h4 : env.account_raises = false)
    (h5 : Trading.can_trade_symbol st.active sym "BUY" env.position_qty = true)
    (h7 : Trading.has_pending_orders env.orders = false)
    (hbal : 0 < env.balance) :
    Trading.main_step se st env
      = Trading.buy_branch (Trading.capture_initial_cash st env.balance) sym
          env.balance env.price env.submit := by
  simp only [Trading.main_step, hsig]
  rw [if_neg (by simp), if_neg (by simp [h2]), if_neg (by simp [h3]),
    if_neg (by simp [h4]),
    if_neg (by rw [Trading.capture_initial_cash_active]; simp [h5]),
    if_neg (by simp [h7])]
  simp [hbal]

theorem Trading.main_step_sell (se : Bool) (st : Trading.State)
    (env : Trading.Env) (sym : String) (hsig : env.sig = some ("SELL", sym))
    (h2 : env.balance_raises = false)
    (h3 : env.price_raises = false)
    (h5 : Trading.can_trade_symbol st.active sym "SELL" env.position_qty = true)
    (h7 : Trading.has_pending_orders env.orders = false) :
    Trading.main_step se st env
      = Trading.sell_branch (Trading.capture_initial_cash st env.balance) sym
          env.position_qty env.submit := by
  simp only [Trading.main_step, hsig]
  rw [if_neg (by simp), if_neg (by simp [h2]), if_neg (by simp [h3]),
    if_neg (by simp),
    if_neg (by rw [Trading.capture_initial_cash_active]; simp [h5]),
    if_neg (by simp [h7])]
  simp

theorem Trading.main_step_short (se : Bool) (st : Trading.State)
    (env : Trading.Env) (sym : String) (hsig : env.sig = some ("SHORT", sym))
    (hse : se = true)
    (h2 : env.balance_raises = false)
    (h3 : env.price_raises = false)
    (h4 : env.account_raises = false)
    (h5 : Trading.can_trade_symbol st.active sym "SHORT" env.position_qty = true)
    (h7 : Trading.has_pending_orders env.orders = false) :
    Trading.main_step se st env
      = Trading.short_branch (Trading.capture_initial_cash st env.balance) sym
          env.balance env.price env.submit := by
  simp only [Trading.main_step, hsig]
  rw [if_neg (by simp [hse]), if_neg (by simp [h2]), if_neg (by simp [h3]),
    if_neg (by simp [h4]),
    if_neg (by rw [Trading.capture_initial_cash_active]; simp [h5]),
    if_neg (by simp [h7])]
  simp

theorem Trading.main_step_cover (se : Bool) (st : Trading.State)
    (env : Trading.Env) (sym : String) (hsig : env.sig = some ("COVER", sym))
    (hse : se = true)
    (h2 : env.balance_raises = false)
    (h3 : env.price_raises = false)
    (h5 : Trading.can_trade_symbol st.active sym "COVER" env.position_qty = true)
    (h7 : Trading.has_pending_orders env.orders = false) :
    Trading.main_step se st env
      = Trading.cover_branch (Trading.capture_initial_cash st env.balance) sym
          env.position_qty env.submit := by
  simp only [Trading.main_step, hsig]
  rw [if_neg (by simp [hse]), if_neg (by simp [h2]), if_neg (by simp [h3]),
    if_neg (by simp),
    if_neg (by rw [Trading.capture_initial_cash_active]; simp [h5]),
    if_neg (by simp [h7])]
  simp

theorem Trading.main_step_unknown_signal (se : Bool) (st : Trading.State)
    (env : Trading.Env) (sigt sym : String) (hsig : env.sig = some (sigt, sym))
    (h1 : ¬((sigt = "SHORT" ∨ sigt = "COVER") ∧ se = false))
    (h2 : env.balance_raises = false)
    (h3 : env.price_raises = false)
    (h4 : ¬(¬(sigt = "SELL" ∨ sigt = "COVER") ∧ env.account_raises = true))
    (h5 : Trading.can_trade_symbol st.active sym sigt env.position_qty = true)
    (h7 : Trading.has_pending_orders env.orders = false)
    (h8 : ¬(sigt = "BUY" ∧ 0 < env.balance))
    (h9 : ¬ sigt = "SELL") (h10 : ¬ sigt = "SHORT") (h11 : ¬ sigt = "COVER") :
    Trading.main_step se st env
      = ⟨Trading.capture_initial_cash st env.balance, [], []⟩ := by
  simp only [Trading.main_step, hsig]
  rw [if_neg h1, if_neg (by simp [h2]), if_neg (by simp [h3]), if_neg h4,
    if_neg (by rw [Trading.capture_initial_cash_active]; simp [h5]),
    if_neg (by simp [h7]), if_neg h8, if_neg h9, if_neg h10, if_neg h11]

theorem Trading.main_step_active_card_le (se : Bool) (st : Trading.State)
    (env : Trading.Env) (h : st.active.card ≤ Trading.MAX_CONCURRENT_SYMBOLS) :
    (Trading.main_step se st env).state.active.card ≤ Trading.MAX_CONCURRENT_SYMBOLS := by
  have hcap := Trading.capture_initial_cash_active st env.balance
  have hins : ∀ (a : String) (s : Finset String),
      s.card < Trading.MAX_CONCURRENT_SYMBOLS →
      (insert a s).card ≤ Trading.MAX_CONCURRENT_SYMBOLS := by
    intro a s hs
    exact le_trans (Finset.card_insert_le a s) hs
  have hera : ∀ (a : String) (s : Finset String),
      s.card ≤ Trading.MAX_CONCURRENT_SYMBOLS →
      (s.erase a).card ≤ Trading.MAX_CONCURRENT_SYMBOLS := by
    intro a s hs
    exact le_trans Finset.card_erase_le hs
  rcases hsig : env.sig with _ | ⟨sigt, sym⟩
  · rw [Trading.main_step_no_signal se st env hsig]
    exact h
  · by_cases h1 : (sigt = "SHORT" ∨ sigt = "COVER") ∧ se = false
    · rw [Trading.main_step_short_disabled se st env sigt sym hsig h1]
      exact h
    · by_cases h2 : env.balance_raises = true
      · rw [Trading.main_step_balance_raises se st env sigt sym hsig h1 h2]
        exact h
      · have h2f := bool_eq_false_of_ne_true h2
        by_cases h3 : env.price_raises = true
        · rw [Trading.main_step_price_raises se st env sigt sym hsig h1 h2f h3]
          simp only [hcap]
          exact h
        · have h3f := bool_eq_false_of_ne_true h3
          by_cases h4 : ¬(sigt = "SELL" ∨ sigt = "COVER") ∧ env.account_raises = true
          · rw [Trading.main_step_account_raises se st env sigt sym hsig h1 h2f h3f h4]
            simp only [hcap]
            exact h
          · by_cases h5 : Trading.can_trade_symbol st.active sym sigt env.position_qty = true
            · by_cases h7 : Trading.has_pending_orders env.orders = true
              · rw [Trading.main_step_deny_pending se st env sigt sym hsig h1 h2f h3f h4 h5 h7]
                simp only [hcap]
                exact h
              · have h7f := bool_eq_false_of_ne_true h7
                by_cases h9 : sigt = "SELL"
                · subst h9
                  rw [Trading.main_step_sell se st env sym hsig h2f h3f h5 h7f]
                  rcases Trading.sell_branch_active
                      (Trading.capture_initial_cash st env.balance) sym
                      env.position_qty env.submit with hb | hb
                  · rw [hb, hcap]; exact h
                  · rw [hb, hcap]; exact hera _ _ h
                · by_cases h10 : sigt = "COVER"
                  · subst h10
                    have hse : se = true := by
                      rcases Bool.eq_false_or_eq_true se with ht | hf
                      · exact ht
                      · exact absurd ⟨Or.inr rfl, hf⟩ h1
                    rw [Trading.main_step_cover se st env sym hsig hse h2f h3f h5 h7f]
                    rcases Trading.cover_branch_active
                        (Trading.capture_initial_cash st env.balance) sym
                        env.position_qty env.submit with hb | hb
                    · rw [hb, hcap]; exact h
                    · rw [hb, hcap]; exact hera _ _ h
                  · have h4f : env.account_raises = false := by
                      rcases Bool.eq_false_or_eq_true env.account_raises with ht | hf
                      · exact absurd ⟨by tauto, ht⟩ h4
                      · exact hf
                    by_cases h8 : sigt = "BUY"
                    · subst h8
                      by_cases hbal : 0 < env.balance
                      · rw [Trading.main_step_buy se st env sym hsig h2f h3f h4f h5 h7f hbal]
                        have hlt : st.active.card < Trading.MAX_CONCURRENT_SYMBOLS := by
                          simpa [Trading.can_trade_symbol] using h5
                        rcases Trading.buy_branch_active
                            (Trading.capture_initial_cash st env.balance) sym
                            env.balance env.price env.submit with hb | hb
                        · rw [hb, hcap]; exact h
                        · rw [hb, hcap]; exact hins _ _ hlt
                      · rw [Trading.main_step_unknown_signal se st env "BUY" sym hsig h1 h2f
                          h3f h4 h5 h7f (by tauto) (by simp) (by simp) (by simp)]
                        simp only [hcap]
                        exact h
                    · by_cases h10s : sigt = "SHORT"
                      · subst h10s
                        have hse : se = true := by
                          rcases Bool.eq_false_or_eq_true se with ht | hf
                          · exact ht
                          · exact absurd ⟨Or.inl rfl, hf⟩ h1
                        rw [Trading.main_step_short se st env sym hsig hse h2f h3f h4f h5 h7f]
                        have hlt : st.active.card < Trading.MAX_CONCURRENT_SYMBOLS := by
                          simpa [Trading.can_trade_symbol] using h5
                        rcases Trading.short_branch_active
                            (Trading.capture_initial_cash st env.balance) sym
                            env.balance env.price env.submit with hb | hb
                        · rw [hb, hcap]; exact h
                        · rw [hb, hcap]; exact hins _ _ hlt
                      · rw [Trading.main_step_unknown_signal se st env sigt sym hsig h1 h2f
                          h3f h4 h5 h7f (by tauto) h9 h10s h10]
                        simp only [hcap]
                        exact h
            · have h5f := bool_eq_false_of_ne_true h5
              by_cases h6 : Trading.MAX_CONCURRENT_SYMBOLS ≤ st.active.card
              · rw [Trading.main_step_deny_max se st env sigt sym hsig h1 h2f h3f h4 h5f h6]
                simp only [hcap]
                exact h
              · rw [Trading.main_step_deny_no_position se st env sigt sym hsig h1 h2f h3f h4 h5f h6]
                simp only [hcap]
                exact h

theorem TradingCrypto.open_long_queue_len (leverage : ℚ) (q : List TradingCrypto.Lot)
    (size_usd tick_size : ℚ) (env : TradingCrypto.OpenEnv) :
    (TradingCrypto.open_long leverage q size_usd tick_size env).queue.length
      ≤ q.length + 1 := by
  unfold TradingCrypto.open_long
  split
  · simp
  · dsimp only
    split
    · simp
    · split
      · simp
      · simp
      · split <;> simp

theorem TradingCrypto.close_oldest_queue_len (q : List TradingCrypto.Lot)
    (tick_size : ℚ) (env : TradingCrypto.CloseEnv) :
    (TradingCrypto.close_oldest_position q tick_size env).queue.length ≤ q.length := by
  unfold TradingCrypto.close_oldest_position
  split
  · simp
  · split
    · split <;> simp
    · dsimp only
      split
      · split <;> simp
      · simp
      · split <;> simp

theorem TradingCrypto.main_step_queue_len (leverage : ℚ) (q : List TradingCrypto.Lot)
    (tick_size : ℚ) (env : TradingCrypto.StepEnv)
    (h : q.length ≤ TradingCrypto.NUM_PARTS) :
    (TradingCrypto.main_step leverage q tick_size env).queue.length
      ≤ TradingCrypto.NUM_PARTS := by
  unfold TradingCrypto.main_step
  split
  · exact h
  · split
    · exact h
    · split
      · exact h
      · split
        · split
          · exact h
          · dsimp only
            split
            · exact h
            · have hol := TradingCrypto.open_long_queue_len leverage q
                (TradingCrypto.calculate_trade_size q.length env.account_value)
                tick_size env.open_env
              omega
        · split
          · have hcl := TradingCrypto.close_oldest_queue_len q tick_size env.close_env
            omega
          · exact h

theorem TradingCrypto.main_run_queue_len (leverage tick_size : ℚ)
    (q : List TradingCrypto.Lot) (envs : List TradingCrypto.StepEnv)
    (h : q.length ≤ TradingCrypto.NUM_PARTS) :
    (TradingCrypto.main_run leverage tick_size q envs).length
      ≤ TradingCrypto.NUM_PARTS := by
  induction envs generalizing q with
  | nil => exact h
  | cons e es ih =>
    exact ih _ (TradingCrypto.main_step_queue_len leverage q tick_size e h)

theorem Trading.main_run_card_le (se : Bool) (st : Trading.State)
    (envs : List Trading.Env) (h : st.active.card ≤ Trading.MAX_CONCURRENT_SYMBOLS) :
    (Trading.main_run se st envs).active.card ≤ Trading.MAX_CONCURRENT_SYMBOLS := by
  induction envs generalizing st with
  | nil => exact h
  | cons e es ih =>
    exact ih _ (Trading.main_step_active_card_le se st e h)

theorem Trading.capture_eq_of_card_zero (st : Trading.State) (b : ℚ)
    (h : st.active.card = 0) :
    Trading.capture_initial_cash st b = ⟨st.active, some b⟩ := by
  unfold Trading.capture_initial_cash
  rw [if_pos h]

theorem Trading.capture_eq_of_card_ne_zero (st : Trading.State) (b : ℚ)
    (h : ¬ st.active.card = 0) :
    Trading.capture_initial_cash st b = st := by
  unfold Trading.capture_initial_cash
  rw [if_neg h]

theorem Trading.capture_wf (st : Trading.State) (b : ℚ)
    (hwf : st.initial_cash = none → st.active = ∅) :
    (Trading.capture_initial_cash st b).initial_cash = none →
      (Trading.capture_initial_cash st b).active = ∅ := by
  unfold Trading.capture_initial_cash
  split
  · intro hc
    simp at hc
  · exact hwf

theorem Trading.buy_branch_state (st1 : Trading.State) (sym : String)
    (b p : ℚ) (s : Trading.Submit) :
    (Trading.buy_branch st1 sym b p s).state = st1
    ∨ ((∃ ic, st1.initial_cash = some ic)
        ∧ (Trading.buy_branch st1 sym b p s).state
            = ⟨insert sym st1.active, st1.initial_cash⟩) := by
  unfold Trading.buy_branch
  split
  · exact Or.inl rfl
  next x ic hic =>
    dsimp only
    split
    · split
      · exact Or.inl rfl
      · exact Or.inr ⟨⟨ic, hic⟩, rfl⟩
      · exact Or.inl rfl
    · exact Or.inl rfl

theorem Trading.short_branch_state (st1 : Trading.State) (sym : String)
    (b p : ℚ) (s : Trading.Submit) :
    (Trading.short_branch st1 sym b p s).state = st1
    ∨ ((∃ ic, st1.initial_cash = some ic)
        ∧ (Trading.short_branch st1 sym b p s).state
            = ⟨insert sym st1.active, st1.initial_cash⟩) := by
  unfold Trading.short_branch
  split
  · exact Or.inl rfl
  next x ic hic =>
    dsimp only
    split
    · split
      · exact Or.inl rfl
      · exact Or.inr ⟨⟨ic, hic⟩, rfl⟩
      · exact Or.inl rfl
    · exact Or.inl rfl

theorem Trading.sell_branch_state (st1 : Trading.State) (sym : String)
    (pq : ℚ) (s : Trading.Submit) :
    (Trading.sell_branch st1 sym pq s).state = st1
    ∨ (Trading.sell_branch st1 sym pq s).state
        = ⟨st1.active.erase sym,
            if (st1.active.erase sym).card = 0 then none else st1.initial_cash⟩ := by
  unfold Trading.sell_branch
  split
  · split
    · exact Or.inl rfl
    · exact Or.inr rfl
    · exact Or.inl rfl
  · exact Or.inl rfl

theorem Trading.cover_branch_state (st1 : Trading.State) (sym : String)
    (pq : ℚ) (s : Trading.Submit) :
    (Trading.cover_branch st1 sym pq s).state = st1
    ∨ (Trading.cover_branch st1 sym pq s).state
        = ⟨st1.active.erase sym,
            if (st1.active.erase sym).card = 0 then none else st1.initial_cash⟩ := by
  unfold Trading.cover_branch
  split
  · split
    · exact Or.inl rfl
    · exact Or.inr rfl
    · exact Or.inl rfl
  · exact Or.inl rfl

theorem Trading.main_step_state_shape (se : Bool) (st : Trading.State)
    (env : Trading.Env) :
    (Trading.main_step se st env).state = st
    ∨ (Trading.main_step se st env).state = Trading.capture_initial_cash st env.balance
    ∨ (∃ sym, (∃ ic, (Trading.capture_initial_cash st env.balance).initial_cash = some ic)
        ∧ (Trading.main_step se st env).state
            = ⟨insert sym (Trading.capture_initial_cash st env.balance).active,
                (Trading.capture_initial_cash st env.balance).initial_cash⟩)
    ∨ (∃ sym, (Trading.main_step se st env).state
          = ⟨(Trading.capture_initial_cash st env.balance).active.erase sym,
              if ((Trading.capture_initial_cash st env.balance).active.erase sym).card = 0
              then none
              else (Trading.capture_initial_cash st env.balance).initial_cash⟩) := by
  rcases hsig : env.sig with _ | ⟨sigt, sym⟩
  · rw [Trading.main_step_no_signal se st env hsig]
    exact Or.inl rfl
  · by_cases h1 : (sigt = "SHORT" ∨ sigt = "COVER") ∧ se = false
    · rw [Trading.main_step_short_disabled se st env sigt sym hsig h1]
      exact Or.inl rfl
    · by_cases h2 : env.balance_raises = true
      · rw [Trading.main_step_balance_raises se st env sigt sym hsig h1 h2]
        exact Or.inl rfl
      · have h2f := bool_eq_false_of_ne_true h2
        by_cases h3 : env.price_raises = true
        · rw [Trading.main_step_price_raises se st env sigt sym hsig h1 h2f h3]
          exact Or.inr (Or.inl rfl)
        · have h3f := bool_eq_false_of_ne_true h3
          by_cases h4 : ¬(sigt = "SELL" ∨ sigt = "COVER") ∧ env.account_raises = true
          · rw [Trading.main_step_account_raises se st env sigt sym hsig h1 h2f h3f h4]
            exact Or.inr (Or.inl rfl)
          · by_cases h5 : Trading.can_trade_symbol st.active sym sigt env.position_qty = true
            · by_cases h7 : Trading.has_pending_orders env.orders = true
              · rw [Trading.main_step_deny_pending se st env sigt sym hsig h1 h2f h3f h4 h5 h7]
                exact Or.inr (Or.inl rfl)
              · have h7f := bool_eq_false_of_ne_true h7
                by_cases h9 : sigt = "SELL"
                · subst h9
                  rw [Trading.main_step_sell se st env sym hsig h2f h3f h5 h7f]
                  rcases Trading.sell_branch_state
                      (Trading.capture_initial_cash st env.balance) sym
                      env.position_qty env.submit with hb | hb
                  · rw [hb]; exact Or.inr (Or.inl rfl)
                  · exact Or.inr (Or.inr (Or.inr ⟨sym, hb⟩))
                · by_cases h10 : sigt = "COVER"
                  · subst h10
                    have hse : se = true := by
                      rcases Bool.eq_false_or_eq_true se with ht | hf
                      · exact ht
                      · exact absurd ⟨Or.inr rfl, hf⟩ h1
                    rw [Trading.main_step_cover se st env sym hsig hse h2f h3f h5 h7f]
                    rcases Trading.cover_branch_state
                        (Trading.capture_initial_cash st env.balance) sym
                        env.position_qty env.submit with hb | hb
                    · rw [hb]; exact Or.inr (Or.inl rfl)
                    · exact Or.inr (Or.inr (Or.inr ⟨sym, hb⟩))
                  · have h4f : env.account_raises = false := by
                      rcases Bool.eq_false_or_eq_true env.account_raises with ht | hf
                      · exact absurd ⟨by tauto, ht⟩ h4
                      · exact hf
                    by_cases h8 : sigt = "BUY"
                    · subst h8
                      by_cases hbal : 0 < env.balance
                      · rw [Trading.main_step_buy se st env sym hsig h2f h3f h4f h5 h7f hbal]
                        rcases Trading.buy_branch_state
                            (Trading.capture_initial_cash st env.balance) sym
                            env.balance env.price env.submit with hb | hb
                        · rw [hb]; exact Or.inr (Or.inl rfl)
                        · exact Or.inr (Or.inr (Or.inl ⟨sym, hb⟩))
                      · rw [Trading.main_step_unknown_signal se st env "BUY" sym hsig h1 h2f
                          h3f h4 h5 h7f (by tauto) (by simp) (by simp) (by simp)]
                        exact Or.inr (Or.inl rfl)
                    · by_cases h10s : sigt = "SHORT"
                      · subst h10s
                        have hse : se = true := by
                          rcases Bool.eq_false_or_eq_true se with ht | hf
                          · exact ht
                          · exact absurd ⟨Or.inl rfl, hf⟩ h1
                        rw [Trading.main_step_short se st env sym hsig hse h2f h3f h4f h5 h7f]
                        rcases Trading.short_branch_state
                            (Trading.capture_initial_cash st env.balance) sym
                            env.balance env.price env.submit with hb | hb
                        · rw [hb]; exact Or.inr (Or.inl rfl)
                        · exact Or.inr (Or.inr (Or.inl ⟨sym, hb⟩))
                      · rw [Trading.main_step_unknown_signal se st env sigt sym hsig h1 h2f
                          h3f h4 h5 h7f (by tauto) h9 h10s h10]
                        exact Or.inr (Or.inl rfl)
            · have h5f := bool_eq_false_of_ne_true h5
              by_cases h6 : Trading.MAX_CONCURRENT_SYMBOLS ≤ st.active.card
              · rw [Trading.main_step_deny_max se st env sigt sym hsig h1 h2f h3f h4 h5f h6]
                exact Or.inr (Or.inl rfl)
              · rw [Trading.main_step_deny_no_position se st env sigt sym hsig h1 h2f h3f h4 h5f h6]
                exact Or.inr (Or.inl rfl)

theorem Trading.buy_branch_orders (st1 : Trading.State) (sym : String)
    (b p : ℚ) (s : Trading.Submit) (ic : ℚ) (hic : st1.initial_cash = some ic) :
    (Trading.buy_branch st1 sym b p s).orders_sent = []
    ∨ (Trading.buy_branch st1 sym b p s).orders_sent
        = [⟨sym, true,
            ((truncToward0 (min (ic * Trading.INVEST_PERCENTAGE) b / p) : ℤ) : ℚ),
            none, .market, false⟩] := by
  simp only [Trading.buy_branch, Trading.place_us_order, hic]
  split
  · split
    next x os heq =>
      split at heq
      · simp_all
      · split at heq <;> simp_all
    next x os heq =>
      split at heq
      · simp_all
      · split at heq <;> simp_all
    next x os heq =>
      split at heq
      · simp_all
      · split at heq <;> simp_all
  · exact Or.inl rfl

/-- C5: the equities-mode initial-cash lifecycle.
(1) At a BUY iteration starting with an empty active set (and no gateway
raise) the state ends with `initial_cash` captured as that iteration's
account cash, and any order submitted is sized from that cash times
`INVEST_PERCENTAGE`; (2) at a BUY iteration with a non-empty active set and
captured `initial_cash = ic`, the capture is untouched and any submitted
order is sized from `min(ic * INVEST_PERCENTAGE, current cash)`; (3) from a
non-empty well-formed state, any one iteration ends with
`initial_cash = None` exactly when it ends with the active set empty; (4)
well-formedness (`initial_cash = None` only in an empty-ledger state) is
preserved by every iteration. -/
theorem C5_initial_cash_lifecycle :
    (∀ (se : Bool) (st : Trading.State) (env : Trading.Env) (sym : String),
        env.sig = some ("BUY", sym) →
        st.active.card = 0 →
        env.balance_raises = false → env.price_raises = false →
        env.account_raises = false →
        (Trading.main_step se st env).state.initial_cash = some env.balance
        ∧ ∀ o ∈ (Trading.main_step se st env).orders_sent,
            o.sz = ((truncToward0
              (env.balance * Trading.INVEST_PERCENTAGE / env.price) : ℤ) : ℚ))
    ∧ (∀ (se : Bool) (st : Trading.State) (env : Trading.Env) (sym : String) (ic : ℚ),
        env.sig = some ("BUY", sym) →
        st.active.card ≠ 0 →
        st.initial_cash = some ic →
        env.balance_raises = false → env.price_raises = false →
        env.account_raises = false →
        (Trading.main_step se st env).state.initial_cash = some ic
        ∧ ∀ o ∈ (Trading.main_step se st env).orders_sent,
            o.sz = ((truncToward0
              (min (ic * Trading.INVEST_PERCENTAGE) env.balance / env.price) : ℤ) : ℚ))
    ∧ (∀ (se : Bool) (st : Trading.State) (env : Trading.Env),
        st.active ≠ ∅ →
        (st.initial_cash = none → st.active = ∅) →
        ((Trading.main_step se st env).state.initial_cash = none
          ↔ (Trading.main_step se st env).state.active = ∅))
    ∧ (∀ (se : Bool) (st : Trading.State) (env : Trading.Env),
        (st.initial_cash = none → st.active = ∅) →
        (Trading.main_step se st env).state.initial_cash = none →
        (Trading.main_step se st env).state.active = ∅) := by
  refine ⟨?_, ?_, ?_, ?_⟩
  · intro se st env sym hsig hcard h2 h3 h4
    have hcapz := Trading.capture_eq_of_card_zero st env.balance hcard
    have h5 : Trading.can_trade_symbol st.active sym "BUY" env.position_qty = true := by
      simp [Trading.can_trade_symbol, hcard, Trading.MAX_CONCURRENT_SYMBOLS]
    by_cases h7 : Trading.has_pending_orders env.orders = true
    · rw [Trading.main_step_deny_pending se st env "BUY" sym hsig (by simp) h2 h3
        (by simp [h4]) h5 h7]
      refine ⟨?_, ?_⟩
      · rw [hcapz]
      · intro o ho
        simp at ho
    · have h7f := bool_eq_false_of_ne_true h7
      by_cases hbal : 0 < env.balance
      · rw [Trading.main_step_buy se st env sym hsig h2 h3 h4 h5 h7f hbal, hcapz]
        have hmin : min (env.balance * Trading.INVEST_PERCENTAGE) env.balance
            = env.balance * Trading.INVEST_PERCENTAGE := by
          refine min_eq_left ?_
          calc env.balance * Trading.INVEST_PERCENTAGE
              ≤ env.balance * 1 := by
                refine mul_le_mul_of_nonneg_left ?_ hbal.le
                norm_num [Trading.INVEST_PERCENTAGE, Trading.MAX_CONCURRENT_SYMBOLS]
            _ = env.balance := mul_one _
        refine ⟨?_, ?_⟩
        · rcases Trading.buy_branch_state ⟨st.active, some env.balance⟩ sym
              env.balance env.price env.submit with hb | ⟨_, hb⟩ <;> rw [hb]
        · intro o ho
          rcases Trading.buy_branch_orders ⟨st.active, some env.balance⟩ sym
              env.balance env.price env.submit env.balance rfl with hb | hb <;>
            rw [hb] at ho
          · simp at ho
          · simp at ho
            rw [ho, hmin]
      · rw [Trading.main_step_unknown_signal se st env "BUY" sym hsig (by simp) h2 h3
          (by simp [h4]) h5 h7f (by tauto) (by simp) (by simp) (by simp)]
        refine ⟨?_, ?_⟩
        · rw [hcapz]
        · intro o ho
          simp at ho
  · intro se st env sym ic hsig hcard hic h2 h3 h4
    have hcapn := Trading.capture_eq_of_card_ne_zero st env.balance hcard
    by_cases h5 : Trading.can_trade_symbol st.active sym "BUY" env.position_qty = true
    · by_cases h7 : Trading.has_pending_orders env.orders = true
      · rw [Trading.main_step_deny_pending se st env "BUY" sym hsig (by simp) h2 h3
          (by simp [h4]) h5 h7]
        refine ⟨by rw [hcapn]; exact hic, ?_⟩
        intro o ho
        simp at ho
      · have h7f := bool_eq_false_of_ne_true h7
        by_cases hbal : 0 < env.balance
        · rw [Trading.main_step_buy se st env sym hsig h2 h3 h4 h5 h7f hbal, hcapn]
          refine ⟨?_, ?_⟩
          · rcases Trading.buy_branch_state st sym env.balance env.price env.submit
              with hb | ⟨_, hb⟩ <;> rw [hb] <;> exact hic
          · intro o ho
            rcases Trading.buy_branch_orders st sym env.balance env.price env.submit
                ic hic with hb | hb <;> rw [hb] at ho
            · simp at ho
            · simp at ho
              rw [ho]
        · rw [Trading.main_step_unknown_signal se st env "BUY" sym hsig (by simp) h2 h3
            (by simp [h4]) h5 h7f (by tauto) (by simp) (by simp) (by simp)]
          refine ⟨by rw [hcapn]; exact hic, ?_⟩
          intro o ho
          simp at ho
    · have h5f := bool_eq_false_of_ne_true h5
      by_cases h6 : Trading.MAX_CONCURRENT_SYMBOLS ≤ st.active.card
      · rw [Trading.main_step_deny_max se st env "BUY" sym hsig (by simp) h2 h3
          (by simp [h4]) h5f h6]
        refine ⟨by rw [hcapn]; exact hic, ?_⟩
        intro o ho
        simp at ho
      · rw [Trading.main_step_deny_no_position se st env "BUY" sym hsig (by simp) h2 h3
          (by simp [h4]) h5f h6]
        refine ⟨by rw [hcapn]; exact hic, ?_⟩
        intro o ho
        simp at ho
  · intro se st env hact hwf
    have hcardne : ¬ st.active.card = 0 := by
      simpa [Finset.card_eq_zero] using hact
    have hcapn := Trading.capture_eq_of_card_ne_zero st env.balance hcardne
    obtain ⟨ic, hic⟩ : ∃ ic, st.initial_cash = some ic := by
      cases hi : st.initial_cash with
      | none => exact absurd (hwf hi) hact
      | some ic => exact ⟨ic, rfl⟩
    rcases Trading.main_step_state_shape se st env with hs | hs | ⟨sym, ⟨ic2, hic2⟩, hs⟩
      | ⟨sym, hs⟩
    · rw [hs]
      simp [hic, hact]
    · rw [hs, hcapn]
      simp [hic, hact]
    · rw [hs, hcapn]
      simp [hic]
    · rw [hs, hcapn]
      by_cases hz : (st.active.erase sym).card = 0
      · simp [hz, Finset.card_eq_zero.mp hz]
      · have hne : ¬(st.active.erase sym = ∅) := by
          simpa [Finset.card_eq_zero] using hz
        simp [hz, hic, hne]
  · intro se st env hwf
    rcases Trading.main_step_state_shape se st env with hs | hs | ⟨sym, ⟨ic2, hic2⟩, hs⟩
      | ⟨sym, hs⟩
    · rw [hs]
      exact hwf
    · rw [hs]
      exact Trading.capture_wf st env.balance hwf
    · rw [hs]
      intro hnone
      simp only [hic2] at hnone
      simp at hnone
    · rw [hs]
      intro hnone
      by_cases hz : ((Trading.capture_initial_cash st env.balance).active.erase sym).card = 0
      · exact Finset.card_eq_zero.mp hz
      · simp only [if_neg hz] at hnone
        have hemp := Trading.capture_wf st env.balance hwf hnone
        rw [hemp]
        exact Finset.erase_empty sym

/-- Witness for C5 at a concrete input: from an empty active set with a BUY
signal, balance 10000 and price 100, the step captures initial cash 10000. -/
theorem C5_initial_cash_lifecycle_witness :
    (Trading.main_step true ⟨∅, none⟩
        ⟨some ("BUY", "TSM"), false, 10000, false, 100, false, 0,
          Except.ok [], .accepted⟩).state.initial_cash = some 10000 :=
  (C5_initial_cash_lifecycle.1 true ⟨∅, none⟩
    ⟨some ("BUY", "TSM"), false, 10000, false, 100, false, 0, Except.ok [], .accepted⟩
    "TSM" rfl (by simp) rfl rfl rfl).1

/-- C2: the concurrency cap.  (1) An opening signal (BUY or SHORT) passes
`can_trade_symbol` only when the active-symbol count is below
`MAX_CONCURRENT_SYMBOLS`; (2) otherwise the iteration is denied with the
max-symbols rejection notification and submits nothing; (3) every state the
equities loop reaches from its initial state keeps at most
`MAX_CONCURRENT_SYMBOLS` active symbols; (4) likewise the crypto loop never
holds more than `NUM_PARTS` open lots starting from an empty queue. -/
theorem C2_concurrency_cap :
    (∀ (active : Finset String) (symbol signal_type : String) (position_qty : ℚ),
        (signal_type = "BUY" ∨ signal_type = "SHORT") →
        Trading.can_trade_symbol active symbol signal_type position_qty = true →
        active.card < Trading.MAX_CONCURRENT_SYMBOLS)
    ∧ (∀ (se : Bool) (st : Trading.State) (env : Trading.Env) (sigt sym : String),
        env.sig = some (sigt, sym) → (sigt = "BUY" ∨ sigt = "SHORT") → se = true →
        env.balance_raises = false → env.price_raises = false →
        env.account_raises = false →
        Trading.MAX_CONCURRENT_SYMBOLS ≤ st.active.card →
        Trading.main_step se st env
          = ⟨Trading.capture_initial_cash st env.balance, [],
              [⟨"Order Rejected", .maxSymbols, 0⟩]⟩)
    ∧ (∀ (se : Bool) (envs : List Trading.Env),
        (Trading.main_run se Trading.initialState envs).active.card
          ≤ Trading.MAX_CONCURRENT_SYMBOLS)
    ∧ (∀ (leverage tick_size : ℚ) (envs : List TradingCrypto.StepEnv),
        (TradingCrypto.main_run leverage tick_size [] envs).length
          ≤ TradingCrypto.NUM_PARTS) := by
  refine ⟨?_, ?_, ?_, ?_⟩
  · intro active symbol signal_type position_qty hopen hcan
    rcases hopen with rfl | rfl <;>
      simpa [Trading.can_trade_symbol] using hcan
  · intro se st env sigt sym hsig hopen hse h2 h3 h4 hcard
    have h5 : Trading.can_trade_symbol st.active sym sigt env.position_qty = false := by
      rcases hopen with rfl | rfl <;>
        simp [Trading.can_trade_symbol, not_lt.mpr hcard]
    refine Trading.main_step_deny_max se st env sigt sym hsig ?_ h2 h3 ?_ h5 hcard
    · rcases hopen with rfl | rfl <;> simp [hse]
    · simp [h4]
  · intro se envs
    refine Trading.main_run_card_le se _ envs ?_
    simp [Trading.initialState, Trading.MAX_CONCURRENT_SYMBOLS]
  · intro leverage tick_size envs
    exact TradingCrypto.main_run_queue_len leverage tick_size [] envs (by simp)

/-- Witness for C2 at a concrete input: the empty active set passes the
opening admission check, and its cardinality is indeed below the cap. -/
theorem C2_concurrency_cap_witness :
    (∅ : Finset String).card < Trading.MAX_CONCURRENT_SYMBOLS :=
  C2_concurrency_cap.1 ∅ "TSM" "BUY" 0 (Or.inl rfl)
    (by simp [Trading.can_trade_symbol, Trading.MAX_CONCURRENT_SYMBOLS])

/-- C1: the spec claims that after ANY failed close attempt (including a raise
anywhere in the close path) the per-symbol lot sequence is bit-for-bit
identical to its pre-attempt state.  The code intends this (its `except`
clause comments "Ensure the failed trade is returned to the queue if it was
already removed") but implements the check as a membership test
`(entry_price, size_eth) not in trade_queue`, which is fooled when a lot
identical to the popped one is still in the queue: with two identical lots
and a raise before any order-response handling (here: the price fetch
raises), the popped lot is NOT pushed back and the queue loses a lot.  The
third conjunct shows the rollback does work on an explicit gateway failure. -/
theorem C1_close_rollback_code_bug :
    (TradingCrypto.close_oldest_position
        [((100 : ℚ), 1), ((100 : ℚ), 1)] (1 / 100)
        ⟨true, 0, .raised⟩).queue = [((100 : ℚ), 1)]
    ∧ [((100 : ℚ), 1)] ≠ [((100 : ℚ), 1), ((100 : ℚ), 1)]
    ∧ (TradingCrypto.close_oldest_position
        [((100 : ℚ), 1), ((100 : ℚ), 1)] (1 / 100)
        ⟨false, 100, .notOk⟩).queue = [((100 : ℚ), 1), ((100 : ℚ), 1)] := by
  refine ⟨?_, by simp, ?_⟩ <;> simp [TradingCrypto.close_oldest_position]

/-- C3: opens append the new lot to the back of the per-symbol sequence and a
successful close removes exactly the front (earliest-inserted) lot, so after
any sequence of opening lots the close removes the earliest surviving one. -/
theorem C3_fifo_closing :
    (∀ (leverage : ℚ) (q : List TradingCrypto.Lot) (size_usd tick_size : ℚ)
        (env : TradingCrypto.OpenEnv) (ss : List OrderStatus),
        env.price_raises = false →
        env.resp = .ok ss →
        ss.any (fun s => s.error.isSome) = false →
        1 / 1000 ≤ quantize (size_usd * leverage / env.price) (1 / 10000) .ROUND_DOWN →
        (TradingCrypto.open_long leverage q size_usd tick_size env).queue
          = q ++ [(env.price,
              quantize (size_usd * leverage / env.price) (1 / 10000) .ROUND_DOWN)])
    ∧ (∀ (lot : TradingCrypto.Lot) (rest : List TradingCrypto.Lot)
        (tick_size : ℚ) (env : TradingCrypto.CloseEnv) (ss : List OrderStatus),
        env.price_raises = false →
        env.resp = .ok ss →
        ss.any (fun s => s.error.isSome) = false →
        (TradingCrypto.close_oldest_position (lot :: rest) tick_size env).queue = rest) := by
  constructor
  · intro leverage q size_usd tick_size env ss hpr hresp hss hmin
    have hmin2 := not_lt.mpr hmin
    simp only [one_div] at hmin2
    simp [TradingCrypto.open_long, hpr, hresp, hss, hmin2]
  · intro lot rest tick_size env ss hpr hresp hss
    simp [TradingCrypto.close_oldest_position, hpr, hresp, hss]

/-- Witness for C3 at concrete inputs: one open of $100 at price $100 with
20x leverage onto an empty queue yields the single lot (100, 20); a
successful close on a two-lot queue removes exactly the front lot. -/
theorem C3_fifo_closing_witness :
    (TradingCrypto.open_long 20 [] 100 (1 / 100) ⟨false, 100, .ok []⟩).queue
      = [((100 : ℚ), quantize (100 * 20 / 100) (1 / 10000) .ROUND_DOWN)]
    ∧ (TradingCrypto.close_oldest_position [((100 : ℚ), 20), ((101 : ℚ), 5)]
        (1 / 100) ⟨false, 102, .ok []⟩).queue = [((101 : ℚ), 5)] :=
  ⟨by
    have h := C3_fifo_closing.1 20 [] 100 (1 / 100) ⟨false, 100, .ok []⟩ []
      rfl rfl rfl (by norm_num [quantize, truncToward0])
    simpa using h,
   C3_fifo_closing.2 ((100 : ℚ), 20) [((101 : ℚ), 5)] (1 / 100)
     ⟨false, 102, .ok []⟩ [] rfl rfl rfl⟩

/-- C4 counterexample: the claim as stated fails on the code.  With
`free_balance = 1000` and `open_position_count = 9 < max_concurrent_symbols
= 10`, the computed per-slot allocation is the whole free balance
(1000 / (10 - 9) = 1000), and allocation times (9 + 1) is 10000, far above
the free balance and any rounding tolerance. -/
theorem C4_allocation_counterexample :
    (1000 : ℚ) < TradingCrypto.calculate_trade_size 9 1000 * ((9 : ℚ) + 1) := by
  norm_num [TradingCrypto.calculate_trade_size, quantize, truncToward0,
    TradingCrypto.NUM_PARTS]

/-- C4 amended: the allocation `free_balance / remaining_slots` (the fixed
fraction rebalanced upward by the count of already-open slots) times the
number of REMAINING slots, `max_concurrent_symbols - open_position_count`,
never exceeds `free_balance`; the product with `(open_position_count + 1)`
claimed by the spec can exceed it as soon as `k + 1` exceeds the remaining
slot count. -/
theorem C4_allocation_conservation_amended (k : ℕ) (V : ℚ)
    (hk : k < TradingCrypto.NUM_PARTS) (hV : 0 ≤ V) :
    TradingCrypto.calculate_trade_size k V
      * ((TradingCrypto.NUM_PARTS : ℚ) - (k : ℚ)) ≤ V := by
  have hkZ : (k : ℤ) < (TradingCrypto.NUM_PARTS : ℤ) := by exact_mod_cast hk
  have hrem : ¬ ((TradingCrypto.NUM_PARTS : ℤ) - (k : ℤ) ≤ 0) := by omega
  have hd : (0 : ℚ) < (TradingCrypto.NUM_PARTS : ℚ) - (k : ℚ) := by
    have : (k : ℚ) < (TradingCrypto.NUM_PARTS : ℚ) := by exact_mod_cast hk
    linarith
  have hcast : (((TradingCrypto.NUM_PARTS : ℤ) - (k : ℤ) : ℤ) : ℚ)
      = (TradingCrypto.NUM_PARTS : ℚ) - (k : ℚ) := by push_cast; ring
  unfold TradingCrypto.calculate_trade_size
  simp only [hrem, if_false]
  rw [hcast]
  calc quantize (V / ((TradingCrypto.NUM_PARTS : ℚ) - (k : ℚ))) (1 / 100) .ROUND_DOWN
        * ((TradingCrypto.NUM_PARTS : ℚ) - (k : ℚ))
      ≤ (V / ((TradingCrypto.NUM_PARTS : ℚ) - (k : ℚ)))
        * ((TradingCrypto.NUM_PARTS : ℚ) - (k : ℚ)) :=
        mul_le_mul_of_nonneg_right
          (quantize_down_le _ _ (by norm_num) (div_nonneg hV hd.le)) hd.le
    _ = V := div_mul_cancel₀ V hd.ne'

/-- C7 counterexample: the pending-order serialization does not hold "in
every loop variant".  The trading_crypto.py loop never consults the
gateway's open orders: in an iteration where the gateway reports one
outstanding unfilled order, a BUY signal still proceeds and submits an
order instead of being denied. -/
theorem C7_pending_counterexample :
    0 < (⟨false, some ("BUY", "ETH.X"), 1000, 1, ⟨false, 100, .ok []⟩,
          ⟨false, 100, .ok []⟩⟩ : TradingCrypto.StepEnv).pending_orders
    ∧ (TradingCrypto.main_step 20 [] (1 / 100)
        ⟨false, some ("BUY", "ETH.X"), 1000, 1, ⟨false, 100, .ok []⟩,
          ⟨false, 100, .ok []⟩⟩).orders.length = 1 := by
  constructor
  · norm_num
  · norm_num [TradingCrypto.main_step, TradingCrypto.open_long,
      TradingCrypto.calculate_trade_size, TradingCrypto.SYMBOL,
      TradingCrypto.NUM_PARTS, quantize, truncToward0]
    rw [if_pos (show ("ETH.X" : String) = "ETH" ++ ".X" from rfl)]
    rfl

/-- C7 amended: only the equities loop (trading.py) checks for outstanding
orders.  There, whenever the gateway reports at least one unfilled order,
(1) the iteration submits no order at all, and (2) if the signal passes the
short-toggle and admission checks and no fetch raises, it is denied with
the pending-order rejection notification.  The crypto loop variants perform
no pending-order check (see the counterexample). -/
theorem C7_pending_serialization_amended :
    (∀ (se : Bool) (st : Trading.State) (env : Trading.Env) (sigt sym : String),
        env.sig = some (sigt, sym) →
        Trading.has_pending_orders env.orders = true →
        (Trading.main_step se st env).orders_sent = [])
    ∧ (∀ (se : Bool) (st : Trading.State) (env : Trading.Env) (sigt sym : String),
        env.sig = some (sigt, sym) →
        Trading.has_pending_orders env.orders = true →
        ¬((sigt = "SHORT" ∨ sigt = "COVER") ∧ se = false) →
        env.balance_raises = false → env.price_raises = false →
        ¬(¬(sigt = "SELL" ∨ sigt = "COVER") ∧ env.account_raises = true) →
        Trading.can_trade_symbol st.active sym sigt env.position_qty = true →
        (Trading.main_step se st env).notifs
          = [⟨"Order Rejected", .pendingOrder, 0⟩]) := by
  constructor
  · intro se st env sigt sym hsig hpend
    by_cases h1 : (sigt = "SHORT" ∨ sigt = "COVER") ∧ se = false
    · rw [Trading.main_step_short_disabled se st env sigt sym hsig h1]
    · by_cases h2 : env.balance_raises = true
      · rw [Trading.main_step_balance_raises se st env sigt sym hsig h1 h2]
      · have h2f := bool_eq_false_of_ne_true h2
        by_cases h3 : env.price_raises = true
        · rw [Trading.main_step_price_raises se st env sigt sym hsig h1 h2f h3]
        · have h3f := bool_eq_false_of_ne_true h3
          by_cases h4 : ¬(sigt = "SELL" ∨ sigt = "COVER") ∧ env.account_raises = true
          · rw [Trading.main_step_account_raises se st env sigt sym hsig h1 h2f h3f h4]
          · by_cases h5 : Trading.can_trade_symbol st.active sym sigt env.position_qty = true
            · rw [Trading.main_step_deny_pending se st env sigt sym hsig h1 h2f h3f h4 h5 hpend]
            · have h5f := bool_eq_false_of_ne_true h5
              by_cases h6 : Trading.MAX_CONCURRENT_SYMBOLS ≤ st.active.card
              · rw [Trading.main_step_deny_max se st env sigt sym hsig h1 h2f h3f h4 h5f h6]
              · rw [Trading.main_step_deny_no_position se st env sigt sym hsig h1 h2f h3f h4 h5f h6]
  · intro se st env sigt sym hsig hpend h1 h2 h3 h4 h5
    rw [Trading.main_step_deny_pending se st env sigt sym hsig h1 h2 h3 h4 h5 hpend]

/-- Witness for the amended C7 at a concrete input: with one outstanding
order at the gateway, a BUY signal is denied with the pending-order
rejection. -/
theorem C7_pending_serialization_amended_witness :
    (Trading.main_step true ⟨∅, none⟩
        ⟨some ("BUY", "TSM"), false, 10000, false, 100, false, 0,
          Except.ok [()], .accepted⟩).notifs
      = [⟨"Order Rejected", .pendingOrder, 0⟩] :=
  C7_pending_serialization_amended.2 true ⟨∅, none⟩
    ⟨some ("BUY", "TSM"), false, 10000, false, 100, false, 0, Except.ok [()], .accepted⟩
    "BUY" "TSM" rfl (by simp [Trading.has_pending_orders]) (by simp) rfl rfl
    (by simp)
    (by simp [Trading.can_trade_symbol, Trading.MAX_CONCURRENT_SYMBOLS])

theorem TradingCrypto.open_long_orders_px (leverage : ℚ)
    (q : List TradingCrypto.Lot) (size_usd tick_size : ℚ)
    (env : TradingCrypto.OpenEnv) :
    ∀ o ∈ (TradingCrypto.open_long leverage q size_usd tick_size env).orders,
      o.px = some (round_to_tick_size (env.price * (105 / 100)) tick_size .ROUND_UP) := by
  intro o ho
  unfold TradingCrypto.open_long at ho
  split at ho
  · simp at ho
  · dsimp only at ho
    split at ho
    · simp at ho
    · split at ho
      · simp at ho
        subst ho
        rfl
      · simp at ho
        subst ho
        rfl
      · split at ho <;> (simp at ho; subst ho; rfl)

theorem TradingCrypto.close_oldest_orders_px (q : List TradingCrypto.Lot)
    (tick_size : ℚ) (env : TradingCrypto.CloseEnv) :
    ∀ o ∈ (TradingCrypto.close_oldest_position q tick_size env).orders,
      o.px = some (round_to_tick_size (env.price * (95 / 100)) tick_size .ROUND_DOWN) := by
  intro o ho
  unfold TradingCrypto.close_oldest_position at ho
  split at ho
  · simp at ho
  · split at ho
    · simp at ho
    · dsimp only at ho
      split at ho
      · simp at ho
        subst ho
        rfl
      · simp at ho
        subst ho
        rfl
      · split at ho <;> (simp at ho; subst ho; rfl)

theorem HyperliquidBtc.open_position_ioc_px (is_long : Bool)
    (size_usd tick_size : ℚ) (env : HyperliquidBtc.OpenPosEnv) :
    ∀ o ∈ (HyperliquidBtc.open_position is_long size_usd tick_size env).orders,
      o.kind = OrderKind.iocLimit →
      o.px = some (round_to_tick_size
        (env.market_price * (if is_long then 105 / 100 else 95 / 100)) tick_size
        (if is_long then .ROUND_UP else .ROUND_DOWN)) := by
  intro o ho hk
  unfold HyperliquidBtc.open_position at ho
  split at ho
  · simp at ho
  · dsimp only at ho
    split at ho
    · simp at ho
    · split at ho
      · simp at ho
        subst ho
        simp [mul_ite]
      · split at ho
        · simp at ho
          rcases ho with ho | ho
          · subst ho; simp [mul_ite]
          · subst ho; simp at hk
        · split at ho
          · simp at ho
            rcases ho with ho | ho | ho
            · subst ho; simp [mul_ite]
            · subst ho; simp at hk
            · subst ho; simp at hk
          · simp at ho
            rcases ho with ho | ho | ho
            · subst ho; simp [mul_ite]
            · subst ho; simp at hk
            · subst ho; simp at hk

/-- C8: limit prices sit on a valid tick and beyond the 5% slippage band.
Every order the crypto `open_long` submits carries a limit price that is an
integer multiple of the tick size and at least 1.05 times the fetched
price; every order `close_oldest_position` submits carries a tick multiple
at most 0.95 times the fetched price; and every IOC entry order of the
leveraged `open_position` carries a tick multiple at least 1.05 times the
market price for longs, and at most 0.95 times it for shorts. -/
theorem C8_limit_price_band :
    (∀ (leverage : ℚ) (q : List TradingCrypto.Lot) (size_usd tick_size : ℚ)
        (env : TradingCrypto.OpenEnv),
        0 < tick_size → 0 ≤ env.price →
        ∀ o ∈ (TradingCrypto.open_long leverage q size_usd tick_size env).orders,
          (∃ n : ℤ, o.px = some ((n : ℚ) * tick_size))
          ∧ ∀ p, o.px = some p → env.price * (105 / 100) ≤ p)
    ∧ (∀ (q : List TradingCrypto.Lot) (tick_size : ℚ) (env : TradingCrypto.CloseEnv),
        0 < tick_size → 0 ≤ env.price →
        ∀ o ∈ (TradingCrypto.close_oldest_position q tick_size env).orders,
          (∃ n : ℤ, o.px = some ((n : ℚ) * tick_size))
          ∧ ∀ p, o.px = some p → p ≤ env.price * (95 / 100))
    ∧ (∀ (is_long : Bool) (size_usd tick_size : ℚ) (env : HyperliquidBtc.OpenPosEnv),
        0 < tick_size → 0 ≤ env.market_price →
        ∀ o ∈ (HyperliquidBtc.open_position is_long size_usd tick_size env).orders,
          o.kind = OrderKind.iocLimit →
          (∃ n : ℤ, o.px = some ((n : ℚ) * tick_size))
          ∧ ∀ p, o.px = some p →
              (is_long = true → env.market_price * (105 / 100) ≤ p)
              ∧ (is_long = false → p ≤ env.market_price * (95 / 100))) := by
  refine ⟨?_, ?_, ?_⟩
  · intro leverage q size_usd tick_size env ht hp o ho
    have hpx := TradingCrypto.open_long_orders_px leverage q size_usd tick_size env o ho
    constructor
    · obtain ⟨n, hn⟩ := round_to_tick_multiple (env.price * (105 / 100)) tick_size .ROUND_UP
      exact ⟨n, by rw [hpx, hn]⟩
    · intro p hpp
      rw [hpx] at hpp
      have hpe := Option.some.inj hpp
      rw [← hpe]
      exact round_to_tick_up_ge _ _ ht (by positivity)
  · intro q tick_size env ht hp o ho
    have hpx := TradingCrypto.close_oldest_orders_px q tick_size env o ho
    constructor
    · obtain ⟨n, hn⟩ := round_to_tick_multiple (env.price * (95 / 100)) tick_size .ROUND_DOWN
      exact ⟨n, by rw [hpx, hn]⟩
    · intro p hpp
      rw [hpx] at hpp
      have hpe := Option.some.inj hpp
      rw [← hpe]
      exact round_to_tick_down_le _ _ ht (by positivity)
  · intro is_long size_usd tick_size env ht hp o ho hk
    have hpx := HyperliquidBtc.open_position_ioc_px is_long size_usd tick_size env o ho hk
    constructor
    · obtain ⟨n, hn⟩ := round_to_tick_multiple
        (env.market_price * (if is_long then 105 / 100 else 95 / 100)) tick_size
        (if is_long then .ROUND_UP else .ROUND_DOWN)
      exact ⟨n, by rw [hpx, hn]⟩
    · intro p hpp
      rw [hpx] at hpp
      have hpe := Option.some.inj hpp
      rw [← hpe]
      cases is_long
      · refine ⟨fun hfalse => by simp at hfalse, fun _ => ?_⟩
        simpa using round_to_tick_down_le (env.market_price * (95 / 100)) tick_size
          ht (by positivity)
      · refine ⟨fun _ => ?_, fun htrue => by simp at htrue⟩
        simpa using round_to_tick_up_ge (env.market_price * (105 / 100)) tick_size
          ht (by positivity)

/-- Witness for C8 at a concrete input: the order submitted by a successful
`open_long` at price 100 with tick size 0.01 carries a limit price on a
tick multiple. -/
theorem C8_limit_price_band_witness :
    ∃ n : ℤ,
      (⟨TradingCrypto.SYMBOL, true,
        quantize (100 * 20 / 100) (1 / 10000) .ROUND_DOWN,
        some (round_to_tick_size (100 * (105 / 100)) (1 / 100) .ROUND_UP),
        .iocLimit, false⟩ : SubmittedOrder).px
        = some ((n : ℚ) * (1 / 100)) :=
  (C8_limit_price_band.1 20 [] 100 (1 / 100) ⟨false, 100, .ok []⟩
    (by norm_num) (by norm_num) _
    (by norm_num [TradingCrypto.open_long, quantize, truncToward0])).1

/-- C10: if listing open orders raises, `has_pending_orders` returns
`False`, and the loop iteration behaves exactly as if the gateway had
reported no outstanding orders: the whole step result is identical. -/
theorem C10_pending_check_exception_swallowed :
    (∀ e : Unit, Trading.has_pending_orders (Except.error e) = false)
    ∧ (∀ (se : Bool) (st : Trading.State) (env : Trading.Env) (e : Unit),
        Trading.main_step se st { env with orders := Except.error e }
          = Trading.main_step se st { env with orders := Except.ok [] }) := by
  constructor
  · intro e
    rfl
  · intro se st env e
    simp only [Trading.main_step, Trading.has_pending_orders]
    rfl

/-- C9 counterexample: not every rejection produces a notification.  In the
crypto loop, a BUY signal arriving while the queue already holds
`NUM_PARTS` lots is denied with only a log warning: the signal is consumed
(check_signal marks its message processed) and no notification is sent. -/
theorem C9_silent_denial_counterexample :
    (TradingCrypto.main_step 20 (List.replicate 10 ((100 : ℚ), (1 : ℚ))) (1 / 100)
        ⟨false, some ("BUY", "ETH.X"), 1000, 0, ⟨false, 100, .ok []⟩,
          ⟨false, 100, .ok []⟩⟩).notifs = [] := rfl

/-- C9 amended: every attempted crypto open (`open_long`) and every close
attempt on a non-empty queue sends exactly one notification (success or
error), and the equities loop sends exactly one notification for its
short-disabled and admission denials; but some paths consume a signal with
no notification at all: the crypto loop's max-positions denial is silent
(conjunct 3; likewise its too-small-size denial and empty-queue close, and
the equities zero-quantity buy, are log-only). -/
theorem C9_notifications_amended :
    (∀ (leverage : ℚ) (q : List TradingCrypto.Lot) (size_usd tick_size : ℚ)
        (env : TradingCrypto.OpenEnv),
        (TradingCrypto.open_long leverage q size_usd tick_size env).notifs.length = 1)
    ∧ (∀ (lot : TradingCrypto.Lot) (rest : List TradingCrypto.Lot) (tick_size : ℚ)
        (env : TradingCrypto.CloseEnv),
        (TradingCrypto.close_oldest_position (lot :: rest) tick_size env).notifs.length = 1)
    ∧ (∀ (leverage : ℚ) (q : List TradingCrypto.Lot) (tick_size : ℚ)
        (env : TradingCrypto.StepEnv) (asset : String),
        env.sig_raises = false →
        env.sig = some ("BUY", asset) →
        ¬ asset ≠ TradingCrypto.SYMBOL ++ ".X" →
        TradingCrypto.NUM_PARTS ≤ q.length →
        (TradingCrypto.main_step leverage q tick_size env).notifs = [])
    ∧ (∀ (se : Bool) (st : Trading.State) (env : Trading.Env) (sigt sym : String),
        env.sig = some (sigt, sym) →
        (sigt = "SHORT" ∨ sigt = "COVER") ∧ se = false →
        (Trading.main_step se st env).notifs.length = 1)
    ∧ (∀ (se : Bool) (st : Trading.State) (env : Trading.Env) (sigt sym : String),
        env.sig = some (sigt, sym) →
        ¬((sigt = "SHORT" ∨ sigt = "COVER") ∧ se = false) →
        env.balance_raises = false → env.price_raises = false →
        ¬(¬(sigt = "SELL" ∨ sigt = "COVER") ∧ env.account_raises = true) →
        Trading.can_trade_symbol st.active sym sigt env.position_qty = false →
        (Trading.main_step se st env).notifs.length = 1) := by
  refine ⟨?_, ?_, ?_, ?_, ?_⟩
  · intro leverage q size_usd tick_size env
    unfold TradingCrypto.open_long
    split
    · rfl
    · dsimp only
      split
      · rfl
      · split
        · rfl
        · rfl
        · split <;> rfl
  · intro lot rest tick_size env
    simp only [TradingCrypto.close_oldest_position]
    split
    · rfl
    · split
      · rfl
      · rfl
      · split <;> rfl
  · intro leverage q tick_size env asset hraises hsig hasset hlen
    simp only [TradingCrypto.main_step, hraises, hsig, Bool.false_eq_true, if_false]
    rw [if_neg hasset]
    simp [hlen]
  · intro se st env sigt sym hsig h1
    rw [Trading.main_step_short_disabled se st env sigt sym hsig h1]
    rfl
  · intro se st env sigt sym hsig h1 h2 h3 h4 h5
    by_cases h6 : Trading.MAX_CONCURRENT_SYMBOLS ≤ st.active.card
    · rw [Trading.main_step_deny_max se st env sigt sym hsig h1 h2 h3 h4 h5 h6]
      rfl
    · rw [Trading.main_step_deny_no_position se st env sigt sym hsig h1 h2 h3 h4 h5 h6]
      rfl

/-- Witness for the amended C9 at a concrete input: a SHORT signal with the
short toggle disabled produces exactly one (rejection) notification. -/
theorem C9_notifications_amended_witness :
    (Trading.main_step false ⟨∅, none⟩
        ⟨some ("SHORT", "TSM"), false, 10000, false, 100, false, 0,
          Except.ok [], .accepted⟩).notifs.length = 1 :=
  C9_notifications_amended.2.2.2.1 false ⟨∅, none⟩
    ⟨some ("SHORT", "TSM"), false, 10000, false, 100, false, 0, Except.ok [], .accepted⟩
    "SHORT" "TSM" rfl ⟨Or.inl rfl, rfl⟩

/-- A Hyperliquid order submission counts as failed when the call raised,
the response status is not "ok", or a nested status carries an error. -/
def OrderResp.failed (r : OrderResp) : Prop :=
  r = .raised ∨ r = .notOk ∨ r.hasNestedError = true

/-- C6: bracketed entries.  (1) On full success, exactly three orders go out
in order — the IOC entry, then a reduce-only take-profit trigger, then a
reduce-only stop-loss trigger, both on the closing side — and a priority-0
confirmation is sent; (2) if the take-profit submission fails, the call ends
with a single priority-1 error notification, the take-profit leg having been
submitted exactly once and the stop-loss leg never (no retry); (3) if the
stop-loss submission fails, each leg was submitted exactly once and a single
priority-1 error notification is sent. -/
theorem C6_bracket_exits :
    (∀ (is_long : Bool) (size_usd tick_size : ℚ) (env : HyperliquidBtc.OpenPosEnv),
        env.price_raises = false →
        ¬(quantize (size_usd * HyperliquidBtc.LEVERAGE / env.market_price)
            (1 / 10000) .ROUND_DOWN < 1 / 1000) →
        ¬ env.main_resp.failed → ¬ env.tp_resp.failed → ¬ env.sl_resp.failed →
        ∃ entry tp sl : SubmittedOrder,
          (HyperliquidBtc.open_position is_long size_usd tick_size env).orders
            = [entry, tp, sl]
          ∧ entry.kind = .iocLimit ∧ entry.reduce_only = false ∧ entry.is_buy = is_long
          ∧ tp.kind = .triggerTp ∧ tp.reduce_only = true ∧ tp.is_buy = !is_long
          ∧ sl.kind = .triggerSl ∧ sl.reduce_only = true ∧ sl.is_buy = !is_long
          ∧ (HyperliquidBtc.open_position is_long size_usd tick_size env).notifs
              = [⟨(if is_long then "LONG" else "SHORT") ++ " OPENED", .positionOpened, 0⟩])
    ∧ (∀ (is_long : Bool) (size_usd tick_size : ℚ) (env : HyperliquidBtc.OpenPosEnv),
        env.price_raises = false →
        ¬(quantize (size_usd * HyperliquidBtc.LEVERAGE / env.market_price)
            (1 / 10000) .ROUND_DOWN < 1 / 1000) →
        ¬ env.main_resp.failed → env.tp_resp.failed →
        ∃ entry tp : SubmittedOrder,
          (HyperliquidBtc.open_position is_long size_usd tick_size env).orders
            = [entry, tp]
          ∧ entry.kind = .iocLimit ∧ tp.kind = .triggerTp ∧ tp.reduce_only = true
          ∧ (HyperliquidBtc.open_position is_long size_usd tick_size env).notifs
              = [⟨HyperliquidBtc.openErrorTitle is_long, .openPositionError, 1⟩])
    ∧ (∀ (is_long : Bool) (size_usd tick_size : ℚ) (env : HyperliquidBtc.OpenPosEnv),
        env.price_raises = false →
        ¬(quantize (size_usd * HyperliquidBtc.LEVERAGE / env.market_price)
            (1 / 10000) .ROUND_DOWN < 1 / 1000) →
        ¬ env.main_resp.failed → ¬ env.tp_resp.failed → env.sl_resp.failed →
        ∃ entry tp sl : SubmittedOrder,
          (HyperliquidBtc.open_position is_long size_usd tick_size env).orders
            = [entry, tp, sl]
          ∧ entry.kind = .iocLimit ∧ tp.kind = .triggerTp ∧ sl.kind = .triggerSl
          ∧ sl.reduce_only = true
          ∧ (HyperliquidBtc.open_position is_long size_usd tick_size env).notifs
              = [⟨HyperliquidBtc.openErrorTitle is_long, .openPositionError, 1⟩]) := by
  refine ⟨?_, ?_, ?_⟩
  · intro is_long size_usd tick_size env h0 hsize hm htp hsl
    unfold HyperliquidBtc.open_position
    rw [h0]
    simp only [Bool.false_eq_true, if_false]
    simp only [OrderResp.failed] at hm htp hsl
    rw [if_neg hsize, if_neg hm, if_neg htp, if_neg hsl]
    exact ⟨_, _, _, rfl, rfl, rfl, rfl, rfl, rfl, rfl, rfl, rfl, rfl, rfl⟩
  · intro is_long size_usd tick_size env h0 hsize hm htp
    unfold HyperliquidBtc.open_position
    rw [h0]
    simp only [Bool.false_eq_true, if_false]
    simp only [OrderResp.failed] at hm htp
    rw [if_neg hsize, if_neg hm, if_pos htp]
    exact ⟨_, _, rfl, rfl, rfl, rfl, rfl⟩
  · intro is_long size_usd tick_size env h0 hsize hm htp hsl
    unfold HyperliquidBtc.open_position
    rw [h0]
    simp only [Bool.false_eq_true, if_false]
    simp only [OrderResp.failed] at hm htp hsl
    rw [if_neg hsize, if_neg hm, if_neg htp, if_pos hsl]
    exact ⟨_, _, _, rfl, rfl, rfl, rfl, rfl, rfl⟩

/-- Witness for C6 at a concrete input: a long entry of $100 at market price
100 with all three submissions succeeding yields entry, take-profit and
stop-loss orders with the claimed kinds and flags. -/
theorem C6_bracket_exits_witness :
    ∃ entry tp sl : SubmittedOrder,
      (HyperliquidBtc.open_position true 100 (1 / 100)
          ⟨false, 100, .ok [], .ok [], .ok []⟩).orders = [entry, tp, sl]
      ∧ entry.kind = .iocLimit ∧ entry.reduce_only = false ∧ entry.is_buy = true
      ∧ tp.kind = .triggerTp ∧ tp.reduce_only = true ∧ tp.is_buy = !true
      ∧ sl.kind = .triggerSl ∧ sl.reduce_only = true ∧ sl.is_buy = !true
      ∧ (HyperliquidBtc.open_position true 100 (1 / 100)
          ⟨false, 100, .ok [], .ok [], .ok []⟩).notifs
          = [⟨(if true then "LONG" else "SHORT") ++ " OPENED", .positionOpened, 0⟩] :=
  C6_bracket_exits.1 true 100 (1 / 100) ⟨false, 100, .ok [], .ok [], .ok []⟩ rfl
    (by norm_num [quantize, truncToward0, HyperliquidBtc.LEVERAGE])
    (by simp [OrderResp.failed, OrderResp.hasNestedError])
    (by simp [OrderResp.failed, OrderResp.hasNestedError])
    (by simp [OrderResp.failed, OrderResp.hasNestedError])

/-- Witness for the amended C4 at a concrete input: with no open slots and a
free balance of 100, the allocation times all 10 remaining slots is at most
100. -/
theorem C4_allocation_conservation_amended_witness :
    TradingCrypto.calculate_trade_size 0 100
      * ((TradingCrypto.NUM_PARTS : ℚ) - ((0 : ℕ) : ℚ)) ≤ 100 :=
  C4_allocation_conservation_amended 0 100 (by norm_num [TradingCrypto.NUM_PARTS])
    (by norm_num)
